import Mathlib

/-!
# Path synthesis of the surface blending service

A shallow embedding of `blending_service_path_generation.cpp`
(`godel_surface_detection/src/services`) and proofs about it.

Conventions of the embedding.

* `double` is modelled by the exact rationals `ℚ`; every statement below is about
  the structure of the computed paths, not about rounding.
* `std::string` is Lean's `String`, read through its list of characters; the
  patterns searched for are ASCII, for which a search by characters and a
  search by bytes agree.
* `std::vector<T>` is `List T`; `size_t` arithmetic is taken modulo `2 ^ 64`
  where the source can wrap.
* ROS services, the mesh importer, the surface segmentation, the polygon
  utilities and the Eigen conversions are code outside this file of the
  source: they are fields of the structure `Services`, and every theorem holds
  for all their values.
* A call that does not return normally (an exception thrown by `std::vector`,
  or `front()` of an empty vector) is a value `Except.error`.
* Logging and the writes to the data coordinator (`setPoses`, `addEdge`) have
  no influence on the returned values and are left out.
-/

namespace Godel

/-! ## `std::string::find` and the path classifiers -/

/-- Search of `pat` in the characters `s`, the first of which has index `i`:
the lowest index at which `pat` occurs, as `std::string::find` returns it;
`none` stands for `std::string::npos`. -/
def findAux (pat : List Char) : List Char → Nat → Option Nat
  | [], i => if pat.isEmpty then some i else none
  | c :: cs, i => if pat.isPrefixOf (c :: cs) then some i else findAux pat cs (i + 1)

/-- The call `name.find(pat, pos)` of `std::string`. -/
def find (name pat : String) (pos : Nat) : Option Nat :=
  if pos > name.length then none else findAux pat.data (name.data.drop pos) pos

/-- Source: `isBlendingPath`, lines 272-278. -/
def isBlendingPath (name : String) : Bool :=
  let suffix := "_blend"
  if name.length < suffix.length then false
  else (find name suffix (name.length - suffix.length)).isSome

/-- Source: `isEdgePath`, lines 281-287. -/
def isEdgePath (name : String) : Bool :=
  let suffix := "_edge"
  if name.length < suffix.length then false
  else (find name suffix 0).isSome

/-- Source: `isScanPath`, lines 289-295. -/
def isScanPath (name : String) : Bool :=
  let suffix := "_scan"
  if name.length < suffix.length then false
  else (find name suffix 0).isSome

/-! ## Messages and Eigen values -/

/-- A point of a polygon boundary (`godel_process_path::PolygonPt`). -/
structure PolygonPt where
  x : ℚ
  y : ℚ
  deriving DecidableEq

abbrev PolygonBoundary := List PolygonPt

abbrev PolygonBoundaryCollection := List PolygonBoundary

/-- The message `geometry_msgs::Point`. -/
structure Point where
  x : ℚ
  y : ℚ
  z : ℚ
  deriving DecidableEq

/-- The message `geometry_msgs::Quaternion`. -/
structure Quaternion where
  x : ℚ
  y : ℚ
  z : ℚ
  w : ℚ
  deriving DecidableEq

/-- The message `geometry_msgs::Pose`. -/
structure Pose where
  position : Point
  orientation : Quaternion
  deriving DecidableEq

/-- The message `geometry_msgs::PoseArray` (its header plays no part here). -/
structure PoseArray where
  poses : List Pose
  deriving DecidableEq

structure Vector3d where
  x : ℚ
  y : ℚ
  z : ℚ
  deriving DecidableEq

structure Vector4d where
  x : ℚ
  y : ℚ
  z : ℚ
  w : ℚ
  deriving DecidableEq

/-- A 3x3 matrix, by rows. -/
structure Matrix3d where
  row0 : Vector3d
  row1 : Vector3d
  row2 : Vector3d
  deriving DecidableEq

/-- A 4x4 matrix, by rows. -/
structure Matrix4d where
  row0 : Vector4d
  row1 : Vector4d
  row2 : Vector4d
  row3 : Vector4d
  deriving DecidableEq

/-- The transform `Eigen::Affine3d`, seen through `linear()` and `translation()`. -/
structure Affine3d where
  linear : Matrix3d
  translation : Vector3d
  deriving DecidableEq

def Vector3d.dot (a b : Vector3d) : ℚ := a.x * b.x + a.y * b.y + a.z * b.z

def Vector3d.add (a b : Vector3d) : Vector3d := ⟨a.x + b.x, a.y + b.y, a.z + b.z⟩

def Matrix3d.col0 (m : Matrix3d) : Vector3d := ⟨m.row0.x, m.row1.x, m.row2.x⟩

def Matrix3d.col1 (m : Matrix3d) : Vector3d := ⟨m.row0.y, m.row1.y, m.row2.y⟩

def Matrix3d.col2 (m : Matrix3d) : Vector3d := ⟨m.row0.z, m.row1.z, m.row2.z⟩

/-- Matrix times vector. -/
def Matrix3d.mulVec (m : Matrix3d) (v : Vector3d) : Vector3d :=
  ⟨m.row0.dot v, m.row1.dot v, m.row2.dot v⟩

/-- Matrix times matrix. -/
def Matrix3d.mul (a b : Matrix3d) : Matrix3d :=
  ⟨⟨a.row0.dot b.col0, a.row0.dot b.col1, a.row0.dot b.col2⟩,
   ⟨a.row1.dot b.col0, a.row1.dot b.col1, a.row1.dot b.col2⟩,
   ⟨a.row2.dot b.col0, a.row2.dot b.col1, a.row2.dot b.col2⟩⟩

/-- The product `a * b` of two affine transforms. -/
def Affine3d.mul (a b : Affine3d) : Affine3d :=
  { linear := a.linear.mul b.linear
    translation := (a.linear.mulVec b.translation).add a.translation }

/-- The product `a * Eigen::Translation3d(x, y, z)`. -/
def Affine3d.translate (a : Affine3d) (x y z : ℚ) : Affine3d :=
  { linear := a.linear
    translation := (a.linear.mulVec ⟨x, y, z⟩).add a.translation }

/-- The constructor `Eigen::Affine3d(m)` from a 4x4 matrix: the upper left 3x3
block is the linear part, the upper right column the translation. -/
def Affine3d.ofMatrix (m : Matrix4d) : Affine3d :=
  { linear := ⟨⟨m.row0.x, m.row0.y, m.row0.z⟩, ⟨m.row1.x, m.row1.y, m.row1.z⟩,
      ⟨m.row2.x, m.row2.y, m.row2.z⟩⟩
    translation := ⟨m.row0.w, m.row1.w, m.row2.w⟩ }

/-- The point `R * p + t` for a transform with linear part `R` and translation `t`. -/
def Affine3d.apply (a : Affine3d) (p : Point) : Point :=
  let v := (a.linear.mulVec ⟨p.x, p.y, p.z⟩).add a.translation
  ⟨v.x, v.y, v.z⟩

/-! ## Parameter messages -/

/-- The fields of `godel_msgs::PathPlanningParameters` that this file reads. -/
structure PathPlanningParameters where
  margin : ℚ
  overlap : ℚ
  tool_radius : ℚ
  discretization : ℚ
  traverse_height : ℚ
  scan_width : ℚ
  deriving DecidableEq

/-- The fields of `godel_msgs::BlendingPlanParameters` that this file writes. -/
structure BlendingPlanParameters where
  margin : ℚ
  overlap : ℚ
  tool_radius : ℚ
  discretization : ℚ
  safe_traverse_height : ℚ
  spindle_speed : ℚ
  approach_spd : ℚ
  blending_spd : ℚ
  retract_spd : ℚ
  traverse_spd : ℚ
  deriving DecidableEq

/-- The fields of `godel_msgs::ScanPlanParameters` that this file writes. -/
structure ScanPlanParameters where
  scan_width : ℚ
  margin : ℚ
  overlap : ℚ
  approach_distance : ℚ
  traverse_spd : ℚ
  quality_metric : Int
  window_width : ℚ
  min_qa_value : ℚ
  max_qa_value : ℚ
  deriving DecidableEq

/-- The request of the service `godel_msgs::PathPlanning`. -/
structure PathPlanningRequest where
  params : PathPlanningParameters
  boundaries : PolygonBoundaryCollection
  pose : Pose

/-- The object `SurfaceSegmentation SS(surface)` with the settings made on it. -/
structure SurfaceSegmentation (Cloud : Type) where
  input_cloud : Cloud
  search_radius : ℚ
  smooth_coef : List ℚ

/-- The ways in which a call fails to return. -/
inductive Fault where
  /-- `std::vector::resize` beyond `max_size()` throws `std::length_error`. -/
  | length_error
  /-- Use of `front()` or `back()` of an empty vector. -/
  | empty_vector
  deriving DecidableEq

/-- The collaborators of the service that are not part of the source file.
`Mesh`, `Cloud` and `Plan` stand for `pcl::PolygonMesh`, the surface cloud and
`godel_msgs::ProcessPlan`. A service call is a function of its request and
returns `none` when the call fails. -/
structure Services (Mesh Cloud Plan : Type) where
  /-- Polygon utility `polygon_utils::circumference`. -/
  circumference : PolygonBoundary → ℚ
  /-- Polygon utility `polygon_utils::checkBoundary`. -/
  checkBoundary : PolygonBoundary → Bool
  /-- Polygon utility `polygon_utils::filter(boundary, spacing)`, as the new value of `boundary`. -/
  filter : PolygonBoundary → ℚ → PolygonBoundary
  /-- The rotation matrix of `Eigen::Quaterniond(w, x, y, z)`. -/
  toRotationMatrix : Quaternion → Matrix3d
  /-- The conversion `(Eigen::Quaterniond) linear`. -/
  toQuaternion : Matrix3d → Quaternion
  /-- Call `mesh_importer_.calculateSimpleBoundary(mesh)`. -/
  calculateSimpleBoundary : Mesh → Bool
  /-- Call `mesh_importer_.getBoundaries()` after the boundary of `mesh` was calculated. -/
  getBoundaries : Mesh → PolygonBoundaryCollection
  /-- Call `mesh_importer_.getPose(pose)` after the boundary of `mesh` was calculated. -/
  getPose : Mesh → Pose
  /-- Call `process_path_client_.call(srv)`: the response poses, or `none`. -/
  process_path_client : PathPlanningRequest → Option PoseArray
  /-- Call `SS.getBoundaryCloud`: the flag `boundary_point` of each point. -/
  getBoundaryCloud : SurfaceSegmentation Cloud → List Bool
  /-- Call `SS.sortBoundary(boundary_idx, sorted_boundaries)`. -/
  sortBoundary : SurfaceSegmentation Cloud → List Nat → List (List Nat)
  /-- Call `SS.getBoundaryTrajectory(boundaries, index, poses)`. -/
  getBoundaryTrajectory : SurfaceSegmentation Cloud → List (List Nat) → Nat → List Matrix4d
  /-- Helper `godel_surface_detection::generateProfilimeterScanPath`. -/
  generateProfilimeterScanPath : PolygonBoundary → PathPlanningParameters → PolygonBoundary
  /-- Call `blend_planning_client_.call(srv)`: the response plan, or `none`. -/
  blend_planning_client : PoseArray → BlendingPlanParameters → Option Plan
  /-- Call `keyence_planning_client_.call(srv)`: the response plan, or `none`. -/
  keyence_planning_client : PoseArray → ScanPlanParameters → Option Plan
  /-- Call `surface_server_.getSelectedIds`. -/
  getSelectedIds : List Int
  /-- Call `data_coordinator_.getSurfaceName`. -/
  getSurfaceName : Int → String
  /-- Call `data_coordinator_.getSurfaceMesh`. -/
  getSurfaceMesh : Int → Mesh
  /-- Call `data_coordinator_.getCloud(surface_cloud, id, cloud)`. -/
  getCloud : Int → Cloud

/-! ## Constants of the source file -/

def SCAN_APPROACH_STEP_COUNT : Nat := 5

def SCAN_APPROACH_STEP_DISTANCE : ℚ := 1 / 100

def SEGMENTATION_SEARCH_RADIUS : ℚ := 3 / 100

def BOUNDARY_THRESHOLD : Nat := 10

def MIN_BOUNDARY_LENGTH : ℚ := 1 / 10

def SPINDLE_SPEED : ℚ := 0

def APPROACH_SPD : ℚ := 5 / 1000

def BLENDING_SPD : ℚ := 3 / 10

def RETRACT_SPD : ℚ := 2 / 100

def TRAVERSE_SPD : ℚ := 5 / 100

def APPROACH_DISTANCE : ℚ := 15 / 100

def QUALITY_METRIC : Int := 0

def WINDOW_WIDTH : ℚ := 2 / 100

def MIN_QA_VALUE : ℚ := 5 / 100

def MAX_QA_VALUE : ℚ := 5 / 100

/-- The number of values of `std::size_t`. -/
def SIZE_MODULUS : Nat := 2 ^ 64

/-- The difference `a - b` of two `std::size_t` values, which wraps around. -/
@[irreducible] def sizeSub (a b : Nat) : Nat := (a + SIZE_MODULUS - b) % SIZE_MODULUS

/-! ## Conversions of `eigen_conversions` -/

section Model

variable {Mesh Cloud Plan : Type}

/-- Conversion `tf::poseMsgToEigen`:
`e = Translation3d(m.position) * Quaterniond(m.orientation)`. -/
def poseMsgToEigen (sv : Services Mesh Cloud Plan) (m : Pose) : Affine3d :=
  { linear := sv.toRotationMatrix m.orientation
    translation := ⟨m.position.x, m.position.y, m.position.z⟩ }

/-- Conversion `tf::poseEigenToMsg`: the position is the translation, the
orientation is the quaternion of the linear part, negated when its `w` is negative. -/
def poseEigenToMsg (sv : Services Mesh Cloud Plan) (e : Affine3d) : Pose :=
  let q := sv.toQuaternion e.linear
  { position := ⟨e.translation.x, e.translation.y, e.translation.z⟩
    orientation := if q.w < 0 then ⟨-q.x, -q.y, -q.z, -q.w⟩ else q }

/-! ## Boundary filter -/

/-- The loop of `filterPolygonBoundaries` from index `i` on, lines 68-87;
`todo` holds `boundaries[i], boundaries[i+1], ...`. -/
def filterPolygonBoundariesLoop (sv : Services Mesh Cloud Plan) (min_boudnary_length : ℚ) :
    List PolygonBoundary → PolygonBoundaryCollection → PolygonBoundaryCollection
  | [], filtered_boundaries => filtered_boundaries
  | bnd :: todo, filtered_boundaries =>
    let circ := sv.circumference bnd
    if circ < min_boudnary_length then
      filterPolygonBoundariesLoop sv min_boudnary_length todo filtered_boundaries
    else if !sv.checkBoundary bnd then
      filterPolygonBoundariesLoop sv min_boudnary_length todo filtered_boundaries
    else
      -- push_back(bnd); filter(back(), 0.1); reverse(back())
      let back := sv.filter bnd (1 / 10)
      let back := back.reverse
      filterPolygonBoundariesLoop sv min_boudnary_length todo (filtered_boundaries ++ [back])

/-- Source: `filterPolygonBoundaries`, lines 62-89. The argument is a `const`
reference; the result is a new collection. -/
def filterPolygonBoundaries (sv : Services Mesh Cloud Plan)
    (boundaries : PolygonBoundaryCollection) (min_boudnary_length : ℚ) :
    PolygonBoundaryCollection :=
  filterPolygonBoundariesLoop sv min_boudnary_length boundaries []

/-! ## The three path builders -/

/-- Source: `SurfaceBlendingService::requestEdgePath`, lines 92-113. The result
is the returned flag and the new value of `path`.

`poses.resize(poses.size() - 2)` computes the new size in `size_t`. When it is
at most the old size the vector is cut to that many elements. Otherwise the
subtraction has wrapped, the request exceeds `max_size()` and `resize` throws. -/
def requestEdgePath (sv : Services Mesh Cloud Plan) (boundaries : List (List Nat))
    (index : Nat) (SS : SurfaceSegmentation Cloud) (path : PoseArray) :
    Except Fault (Bool × PoseArray) :=
  let poses := sv.getBoundaryTrajectory SS boundaries index
  let new_size := sizeSub poses.length 2
  if new_size ≤ poses.length then
    let poses := poses.take new_size
    .ok (true, ⟨path.poses ++ poses.map (fun p => poseEigenToMsg sv (Affine3d.ofMatrix p))⟩)
  else
    .error Fault.length_error

/-- The loop of `requestBlendPath`, lines 146-157. The variable `p` lives
outside the loop: each round starts from the `p` the previous round left. -/
def requestBlendPathLoop (sv : Services Mesh Cloud Plan) (boundary_pose : Pose)
    (boundary_pose_eigen : Affine3d) : List Pose → Pose → List Pose → List Pose
  | [], _, out => out
  | pose :: rest, p, out =>
    let p := { p with position := ⟨pose.position.x, pose.position.y, pose.position.z⟩ }
    let eigen_p := poseMsgToEigen sv p
    let result := boundary_pose_eigen.mul eigen_p
    let p := poseEigenToMsg sv result
    let p := { p with orientation := boundary_pose.orientation }
    requestBlendPathLoop sv boundary_pose boundary_pose_eigen rest p (out ++ [p])

/-- Source: `SurfaceBlendingService::requestBlendPath`, lines 115-160. -/
def requestBlendPath (sv : Services Mesh Cloud Plan) (boundaries : PolygonBoundaryCollection)
    (boundary_pose : Pose) (params : PathPlanningParameters) (path : PoseArray) :
    Bool × PoseArray :=
  let srv : PathPlanningRequest :=
    { params := params
      boundaries := boundaries
      pose := ⟨⟨0, 0, 0⟩, ⟨0, 0, 0, 1⟩⟩ }
  match sv.process_path_client srv with
  | none => (false, path)
  | some path_local =>
    let p : Pose := ⟨⟨0, 0, 0⟩, ⟨0, 0, 0, 1⟩⟩
    let boundary_pose_eigen := poseMsgToEigen sv boundary_pose
    (true, ⟨requestBlendPathLoop sv boundary_pose boundary_pose_eigen path_local.poses p
      path.poses⟩)

/-- One round `i` of the approach and departure loop of `requestScanPath`,
lines 214-226. -/
def scanRampStep (start_pose end_pose : Pose) (poses : List Pose) (i : Nat) : List Pose :=
  let start_z := start_pose.position.z
  let end_z := end_pose.position.z
  let z_offset := (i : ℚ) * SCAN_APPROACH_STEP_DISTANCE
  let approach_pose : Pose :=
    { orientation := start_pose.orientation
      position := { start_pose.position with z := start_z + z_offset } }
  let poses := approach_pose :: poses
  let departure_pose : Pose :=
    { orientation := end_pose.orientation
      position := { end_pose.position with z := end_z + z_offset } }
  poses ++ [departure_pose]

/-- Source: `SurfaceBlendingService::requestScanPath`, lines 162-230. Line 191
writes `p.position.z = 0.0` for the `z` of the point `p`; the point has `z = 0`. -/
def requestScanPath (sv : Services Mesh Cloud Plan) (boundaries : PolygonBoundaryCollection)
    (boundary_pose : Pose) (params : PathPlanningParameters) (path : PoseArray) :
    Except Fault (Bool × PoseArray) :=
  match boundaries with
  | [] => .ok (false, path)
  | front :: _ =>
    let scan := sv.generateProfilimeterScanPath front params
    let boundary_pose_eigen := poseMsgToEigen sv boundary_pose
    let points : List Point := scan.map (fun pt => ⟨pt.x, pt.y, 0⟩)
    let poses := path.poses ++ points.map (fun point =>
      poseEigenToMsg sv (boundary_pose_eigen.translate point.x point.y point.z))
    match poses.head?, poses.getLast? with
    | some start_pose, some end_pose =>
      .ok (true, ⟨(List.range SCAN_APPROACH_STEP_COUNT).foldl
        (scanRampStep start_pose end_pose) poses⟩)
    | _, _ => .error Fault.empty_vector

/-! ## Results and the trajectory library -/

/-- A named path, the `value_type` of `ProcessPathResult`. -/
abbrev NamedPath := String × PoseArray

/-- The result of path generation for one surface. -/
structure ProcessPathResult where
  paths : List NamedPath

/-- The result of plan generation for one path. -/
structure ProcessPlanResult (Plan : Type) where
  plans : List (String × Plan)

/-- The member `process_path_results_`. -/
structure ProcessPathResults where
  blend_poses_ : List PoseArray
  edge_poses_ : List PoseArray
  scan_poses_ : List PoseArray

/-- The map of `TrajectoryLibrary`, a `std::map` from name to plan, as the list
of its entries, each key once, in the order in which the keys were first
inserted. Only lookup and membership are read below, never the iteration order. -/
abbrev TrajectoryLibrary (Plan : Type) := List (String × Plan)

/-- The assignment `lib.get()[key] = plan` of `std::map`: overwrite the entry of
`key` when there is one, insert a new entry otherwise. -/
def TrajectoryLibrary.assign : TrajectoryLibrary Plan → String → Plan → TrajectoryLibrary Plan
  | [], key, plan => [(key, plan)]
  | (k, v) :: rest, key, plan =>
    if key = k then (k, plan) :: rest
    else (k, v) :: TrajectoryLibrary.assign rest key plan

/-- The lookup `find(key)` of `std::map`. -/
def TrajectoryLibrary.lookup : TrajectoryLibrary Plan → String → Option Plan
  | [], _ => none
  | (k, v) :: rest, key => if key = k then some v else TrajectoryLibrary.lookup rest key

/-! ## Path generation for one surface -/

/-- Source: `computeBoundaries`, lines 232-270, as the value left in
`sorted_boundaries`. The indices of the flagged points are collected in
increasing order and sorted into chains; the boundary cloud built alongside
and the final search of the longest chain are not used afterwards. -/
def computeBoundaries (sv : Services Mesh Cloud Plan) (SS : SurfaceSegmentation Cloud) :
    List (List Nat) :=
  let boundary_ptr := sv.getBoundaryCloud SS
  let boundary_idx := (List.range boundary_ptr.length).filter (fun k => boundary_ptr.getD k false)
  sv.sortBoundary SS boundary_idx

/-- One round of the edge loop of `generateProcessPath`, lines 387-419, for the
index `i`; `continue` leaves `result` as it is. -/
def edgePathStep (sv : Services Mesh Cloud Plan) (name : String) (boundary_pose : Pose)
    (SS : SurfaceSegmentation Cloud) (sorted_boundaries : List (List Nat)) (i : Nat)
    (result : ProcessPathResult) : Except Fault ProcessPathResult :=
  if (sorted_boundaries.getD i []).length < BOUNDARY_THRESHOLD then
    .ok result
  else
    match requestEdgePath sv sorted_boundaries i SS ⟨[]⟩ with
    | .error e => .error e
    | .ok (true, edge_poses) =>
      .ok ⟨result.paths ++ [(name ++ "_edge_" ++ toString i,
        ⟨edge_poses.poses.map (fun p => { p with orientation := boundary_pose.orientation })⟩)]⟩
    | .ok (false, _) => .ok result

/-- The edge loop of `generateProcessPath`, lines 385-420, over the indices `i`
still to visit. -/
def edgePathLoop (sv : Services Mesh Cloud Plan) (name : String) (boundary_pose : Pose)
    (SS : SurfaceSegmentation Cloud) (sorted_boundaries : List (List Nat)) :
    List Nat → ProcessPathResult → Except Fault ProcessPathResult
  | [], result => .ok result
  | i :: todo, result =>
    match edgePathStep sv name boundary_pose SS sorted_boundaries i result with
    | .error e => .error e
    | .ok result => edgePathLoop sv name boundary_pose SS sorted_boundaries todo result

/-- The object `SS` of `generateProcessPath`, lines 366-380: the segmentation of
the cloud with its search radius and smoothing coefficients set. -/
def segmentationOf (surface : Cloud) : SurfaceSegmentation Cloud :=
  { input_cloud := surface
    search_radius := SEGMENTATION_SEARCH_RADIUS
    smooth_coef := [1, 2, 3, 4, 5, 4, 3, 2, 1] }

/-- Source: `SurfaceBlendingService::generateProcessPath` with five arguments,
lines 316-439. -/
def generateProcessPath (sv : Services Mesh Cloud Plan) (_id : Int) (name : String)
    (mesh : Mesh) (surface : Cloud) (params : PathPlanningParameters) :
    Except Fault ProcessPathResult :=
  let result : ProcessPathResult := ⟨[]⟩
  if !sv.calculateSimpleBoundary mesh then
    .ok result
  else
    let filtered_boundaries := filterPolygonBoundaries sv (sv.getBoundaries mesh) MIN_BOUNDARY_LENGTH
    let boundary_pose := sv.getPose mesh
    -- blend path
    let result : ProcessPathResult :=
      match requestBlendPath sv filtered_boundaries boundary_pose params ⟨[]⟩ with
      | (true, blend_poses) => ⟨result.paths ++ [(name ++ "_blend", blend_poses)]⟩
      | (false, _) => result
    -- edge paths
    let SS := segmentationOf surface
    let sorted_boundaries := computeBoundaries sv SS
    match edgePathLoop sv name boundary_pose SS sorted_boundaries
        (List.range sorted_boundaries.length) result with
    | .error e => .error e
    | .ok result =>
      -- scan path
      match requestScanPath sv filtered_boundaries boundary_pose params ⟨[]⟩ with
      | .error e => .error e
      | .ok (true, scan_poses) => .ok ⟨result.paths ++ [(name ++ "_scan", scan_poses)]⟩
      | .ok (false, _) => .ok result

/-- Source: `SurfaceBlendingService::generateProcessPath` with two arguments,
lines 298-313. -/
def generateProcessPathById (sv : Services Mesh Cloud Plan) (id : Int)
    (params : PathPlanningParameters) : Except Fault ProcessPathResult :=
  let name := sv.getSurfaceName id
  let mesh := sv.getSurfaceMesh id
  let surface_ptr := sv.getCloud id
  generateProcessPath sv id name mesh surface_ptr params

/-! ## Plan generation and the motion library -/

/-- Source: `SurfaceBlendingService::generateProcessPlan`, lines 514-567. -/
def generateProcessPlan (sv : Services Mesh Cloud Plan) (name : String) (poses : PoseArray)
    (params : BlendingPlanParameters) (scan_params : ScanPlanParameters) :
    ProcessPlanResult Plan :=
  let result : ProcessPlanResult Plan := ⟨[]⟩
  let response : Option Plan :=
    if isBlendingPath name then
      sv.blend_planning_client poses params
    else if isEdgePath name then
      sv.blend_planning_client poses params
    else
      sv.keyence_planning_client poses scan_params
  match response with
  | some process_plan => ⟨result.plans ++ [(name, process_plan)]⟩
  | none => result

/-- The first loop over the paths of a surface in `generateMotionLibrary`,
lines 459-472: each path is filed under its type. -/
def classifyPathsLoop : List NamedPath → ProcessPathResults → ProcessPathResults
  | [], acc => acc
  | vt :: todo, acc =>
    if isBlendingPath vt.1 then
      classifyPathsLoop todo { acc with blend_poses_ := acc.blend_poses_ ++ [vt.2] }
    else if isEdgePath vt.1 then
      classifyPathsLoop todo { acc with edge_poses_ := acc.edge_poses_ ++ [vt.2] }
    else if isScanPath vt.1 then
      classifyPathsLoop todo { acc with scan_poses_ := acc.scan_poses_ ++ [vt.2] }
    else
      classifyPathsLoop todo acc

/-- The inner loop over `k` in `generateMotionLibrary`, lines 505-506. -/
def storePlansLoop : List (String × Plan) → TrajectoryLibrary Plan → TrajectoryLibrary Plan
  | [], lib => lib
  | plan :: todo, lib => storePlansLoop todo (TrajectoryLibrary.assign lib plan.1 plan.2)

/-- The loop over `j` in `generateMotionLibrary`, lines 500-507. -/
def planPathsLoop (sv : Services Mesh Cloud Plan) (blend_params : BlendingPlanParameters)
    (scan_params : ScanPlanParameters) :
    List NamedPath → TrajectoryLibrary Plan → TrajectoryLibrary Plan
  | [], lib => lib
  | path :: todo, lib =>
    let plan := generateProcessPlan sv path.1 path.2 blend_params scan_params
    planPathsLoop sv blend_params scan_params todo (storePlansLoop plan.plans lib)

/-- The message `blend_params` of `generateMotionLibrary`, lines 474-484. -/
def blendPlanParameters (params : PathPlanningParameters) : BlendingPlanParameters :=
  { margin := params.margin
    overlap := params.overlap
    tool_radius := params.tool_radius
    discretization := params.discretization
    safe_traverse_height := params.traverse_height
    spindle_speed := SPINDLE_SPEED
    approach_spd := APPROACH_SPD
    blending_spd := BLENDING_SPD
    retract_spd := RETRACT_SPD
    traverse_spd := TRAVERSE_SPD }

/-- The message `scan_params` of `generateMotionLibrary`, lines 486-496. -/
def scanPlanParameters (params : PathPlanningParameters) : ScanPlanParameters :=
  { scan_width := params.scan_width
    margin := params.margin
    overlap := params.overlap
    approach_distance := APPROACH_DISTANCE
    traverse_spd := TRAVERSE_SPD
    quality_metric := QUALITY_METRIC
    window_width := WINDOW_WIDTH
    min_qa_value := MIN_QA_VALUE
    max_qa_value := MAX_QA_VALUE }

/-- The loop over the selected ids in `generateMotionLibrary`, lines 453-508. -/
def motionLibraryLoop (sv : Services Mesh Cloud Plan) (params : PathPlanningParameters) :
    List Int → TrajectoryLibrary Plan × ProcessPathResults →
      Except Fault (TrajectoryLibrary Plan × ProcessPathResults)
  | [], state => .ok state
  | id :: todo, (lib, process_path_results_) =>
    match generateProcessPathById sv id params with
    | .error e => .error e
    | .ok paths =>
      let process_path_results_ := classifyPathsLoop paths.paths process_path_results_
      let blend_params := blendPlanParameters params
      let scan_params := scanPlanParameters params
      let lib := planPathsLoop sv blend_params scan_params paths.paths lib
      motionLibraryLoop sv params todo (lib, process_path_results_)

/-- Source: `SurfaceBlendingService::generateMotionLibrary`, lines 441-511: the
returned library, with the new value of the member `process_path_results_`. -/
def generateMotionLibrary (sv : Services Mesh Cloud Plan) (params : PathPlanningParameters) :
    Except Fault (TrajectoryLibrary Plan × ProcessPathResults) :=
  let selected_ids := sv.getSelectedIds
  motionLibraryLoop sv params selected_ids ([], ⟨[], [], []⟩)

/-! ## Closed forms used in the statements -/

/-- The boundaries that `filterPolygonBoundaries` keeps. -/
def keptBoundary (sv : Services Mesh Cloud Plan) (m : ℚ) (b : PolygonBoundary) : Bool :=
  decide (m ≤ sv.circumference b) && sv.checkBoundary b

/-- What `filterPolygonBoundaries` stores for a boundary it keeps. -/
def storedBoundary (sv : Services Mesh Cloud Plan) (b : PolygonBoundary) : PolygonBoundary :=
  (sv.filter b (1 / 10)).reverse

/-- The pose that `requestEdgePath` stores for a trajectory matrix. -/
def edgePose (sv : Services Mesh Cloud Plan) (p : Matrix4d) : Pose :=
  poseEigenToMsg sv (Affine3d.ofMatrix p)

/-- The translation column of a trajectory matrix, as a point. -/
def Matrix4d.position (p : Matrix4d) : Point := ⟨p.row0.w, p.row1.w, p.row2.w⟩

/-- The trajectory without its last two matrices. -/
def trimmedTrajectory (sv : Services Mesh Cloud Plan) (SS : SurfaceSegmentation Cloud)
    (boundaries : List (List Nat)) (index : Nat) : List Matrix4d :=
  let traj := sv.getBoundaryTrajectory SS boundaries index
  traj.take (traj.length - 2)

/-- The request that `requestBlendPath` sends. -/
def blendRequest (boundaries : PolygonBoundaryCollection) (params : PathPlanningParameters) :
    PathPlanningRequest :=
  { params := params
    boundaries := boundaries
    pose := ⟨⟨0, 0, 0⟩, ⟨0, 0, 0, 1⟩⟩ }

/-- The world-frame poses of the scan profile of `front`, in profile order:
the boundary pose moved by each profile point at height zero. -/
def scanProfilePoses (sv : Services Mesh Cloud Plan) (front : PolygonBoundary)
    (boundary_pose : Pose) (params : PathPlanningParameters) : List Pose :=
  (sv.generateProfilimeterScanPath front params).map (fun pt =>
    poseEigenToMsg sv ((poseMsgToEigen sv boundary_pose).translate pt.x pt.y 0))

/-- The pose `endpoint` lifted by `i` steps: the same `x`, `y` and orientation,
`z` increased by `i * SCAN_APPROACH_STEP_DISTANCE`. -/
def rampPose (endpoint : Pose) (i : Nat) : Pose :=
  { position :=
      ⟨endpoint.position.x, endpoint.position.y,
        endpoint.position.z + (i : ℚ) * SCAN_APPROACH_STEP_DISTANCE⟩
    orientation := endpoint.orientation }

/-- The blend entry of a surface: one named path when `requestBlendPath`
returns true, none when it returns false. -/
def blendEntries (sv : Services Mesh Cloud Plan) (name : String)
    (filtered_boundaries : PolygonBoundaryCollection) (boundary_pose : Pose)
    (params : PathPlanningParameters) : List NamedPath :=
  match requestBlendPath sv filtered_boundaries boundary_pose params ⟨[]⟩ with
  | (true, blend_poses) => [(name ++ "_blend", blend_poses)]
  | (false, _) => []

/-- The edge entries of a surface: the edge loop run from the empty result. -/
def edgeEntries (sv : Services Mesh Cloud Plan) (name : String) (surface : Cloud)
    (boundary_pose : Pose) : Except Fault (List NamedPath) :=
  match edgePathLoop sv name boundary_pose (segmentationOf surface)
      (computeBoundaries sv (segmentationOf surface))
      (List.range (computeBoundaries sv (segmentationOf surface)).length) ⟨[]⟩ with
  | .error e => .error e
  | .ok result => .ok result.paths

/-- The scan entry of a surface: one named path when `requestScanPath` returns
true, none when it returns false. -/
def scanEntries (sv : Services Mesh Cloud Plan) (name : String)
    (filtered_boundaries : PolygonBoundaryCollection) (boundary_pose : Pose)
    (params : PathPlanningParameters) : Except Fault (List NamedPath) :=
  match requestScanPath sv filtered_boundaries boundary_pose params ⟨[]⟩ with
  | .error e => .error e
  | .ok (true, scan_poses) => .ok [(name ++ "_scan", scan_poses)]
  | .ok (false, _) => .ok []

/-- The result of a surface assembled from its three kinds of entries. -/
def assembleEntries (blend : List NamedPath) (edges scan : Except Fault (List NamedPath)) :
    Except Fault ProcessPathResult :=
  match edges with
  | .error e => .error e
  | .ok E =>
    match scan with
    | .error e => .error e
    | .ok S => .ok ⟨blend ++ E ++ S⟩

/-- The collaborators with another blend path planning service. -/
def Services.withBlendClient (sv : Services Mesh Cloud Plan)
    (c : PathPlanningRequest → Option PoseArray) : Services Mesh Cloud Plan :=
  { sv with process_path_client := c }

/-- The collaborators with another scan profile generator. -/
def Services.withScanProfile (sv : Services Mesh Cloud Plan)
    (g : PolygonBoundary → PathPlanningParameters → PolygonBoundary) :
    Services Mesh Cloud Plan :=
  { sv with generateProfilimeterScanPath := g }

/-- The named plans of the paths of one surface, in path order: each path that
`generateProcessPlan` plans successfully contributes its name and plan. -/
def plannedEntries (sv : Services Mesh Cloud Plan) (params : PathPlanningParameters)
    (paths : List NamedPath) : List (String × Plan) :=
  paths.flatMap (fun vt =>
    (generateProcessPlan sv vt.1 vt.2 (blendPlanParameters params)
      (scanPlanParameters params)).plans)

/-- The path results of the surfaces `ids`, in order; the first fault ends it. -/
def allSurfacePaths (sv : Services Mesh Cloud Plan) (params : PathPlanningParameters) :
    List Int → Except Fault (List ProcessPathResult)
  | [] => .ok []
  | id :: ids =>
    match generateProcessPathById sv id params with
    | .error e => .error e
    | .ok r =>
      match allSurfacePaths sv params ids with
      | .error e => .error e
      | .ok rs => .ok (r :: rs)

/-- The named plans of all surfaces, in surface order and then path order. -/
def allPlannedEntries (sv : Services Mesh Cloud Plan) (params : PathPlanningParameters)
    (results : List ProcessPathResult) : List (String × Plan) :=
  results.flatMap (fun r => plannedEntries sv params r.paths)

/-- Insertion of the entries, in order, with overwrite, into the map `lib`. -/
def insertAll (entries : List (String × Plan)) (lib : TrajectoryLibrary Plan) :
    TrajectoryLibrary Plan :=
  entries.foldl (fun l kv => TrajectoryLibrary.assign l kv.1 kv.2) lib

/-- A name that one of the three classifiers accepts. -/
def recognized (name : String) : Bool :=
  isBlendingPath name || isEdgePath name || isScanPath name

/-! ## Test doubles for the concrete instances -/

/-- The rotation matrix of a quaternion by the usual formula. -/
def rotationOfQuaternion (q : Quaternion) : Matrix3d :=
  ⟨⟨1 - 2 * (q.y * q.y + q.z * q.z), 2 * (q.x * q.y - q.w * q.z), 2 * (q.x * q.z + q.w * q.y)⟩,
   ⟨2 * (q.x * q.y + q.w * q.z), 1 - 2 * (q.x * q.x + q.z * q.z), 2 * (q.y * q.z - q.w * q.x)⟩,
   ⟨2 * (q.x * q.z - q.w * q.y), 2 * (q.y * q.z + q.w * q.x), 1 - 2 * (q.x * q.x + q.y * q.y)⟩⟩

/-- A trajectory matrix with the identity rotation and translation `(k, 0, 0)`. -/
def demoMatrix (k : Nat) : Matrix4d :=
  ⟨⟨1, 0, 0, k⟩, ⟨0, 1, 0, 0⟩, ⟨0, 0, 1, 0⟩, ⟨0, 0, 0, 1⟩⟩

/-- A test double: a mesh is a number `n`, its one boundary has `n + 3` points,
the blend planner returns one local pose per boundary point, the cloud has 12
boundary points in one chain whose trajectory has `len` matrices, the scan
profile of a boundary is the boundary, and a plan is the number of poses of the
planned path (plus 100 from the scan planner). Every surface is named `"A"`. -/
def demoServices (len : Nat) : Services Nat Unit Nat :=
  { circumference := fun b => b.length
    checkBoundary := fun _ => true
    filter := fun b _ => b
    toRotationMatrix := rotationOfQuaternion
    toQuaternion := fun _ => ⟨0, 0, 0, 1⟩
    calculateSimpleBoundary := fun _ => true
    getBoundaries := fun n => [(List.range (n + 3)).map (fun k => ⟨k, 0⟩)]
    getPose := fun _ => ⟨⟨1, 2, 3⟩, ⟨0, 0, 0, 1⟩⟩
    process_path_client := fun req =>
      some ⟨req.boundaries.flatten.map (fun pt => ⟨⟨pt.x, pt.y, 0⟩, ⟨1, 0, 0, 0⟩⟩)⟩
    getBoundaryCloud := fun _ => List.replicate 12 true
    sortBoundary := fun _ idx => [idx]
    getBoundaryTrajectory := fun _ _ _ => (List.range len).map demoMatrix
    generateProfilimeterScanPath := fun b _ => b
    blend_planning_client := fun poses _ => some poses.poses.length
    keyence_planning_client := fun poses _ => some (100 + poses.poses.length)
    getSelectedIds := [1, 2]
    getSurfaceName := fun _ => "A"
    getSurfaceMesh := fun id => id.toNat
    getCloud := fun _ => () }

/-- The segmentation object of the test double. -/
def demoSS : SurfaceSegmentation Unit :=
  { input_cloud := (), search_radius := SEGMENTATION_SEARCH_RADIUS
    smooth_coef := [1, 2, 3, 4, 5, 4, 3, 2, 1] }

/-- The parameters of the test double. -/
def demoParams : PathPlanningParameters := ⟨0, 0, 0, 0, 0, 0⟩

/-- The surface results of the test double with a trajectory of 5 matrices. -/
def demoResults : Except Fault (List ProcessPathResult) :=
  allSurfacePaths (demoServices 5) demoParams (demoServices 5).getSelectedIds

/-- The named plans of the two surfaces of the test double, both named `"A"`:
the first surface gives the first three, the second surface the last three. -/
def demoEntries : List (String × Nat) :=
  [("A_blend", 4), ("A_edge_0", 3), ("A_scan", 114),
   ("A_blend", 5), ("A_edge_0", 3), ("A_scan", 115)]

/-- The test double with every selected surface named `"left_edge"`. -/
def edgeNamedServices : Services Nat Unit Nat :=
  { demoServices 5 with getSurfaceName := fun _ => "left_edge" }

end Model

/-! ## Lemmas on `find` -/

theorem findAux_isSome_iff (pat : List Char) (hp : pat ≠ []) (s : List Char) (i : Nat) :
    (findAux pat s i).isSome = true ↔ pat <:+: s := by
  induction s generalizing i with
  | nil =>
    cases pat with
    | nil => exact absurd rfl hp
    | cons a t => simp [findAux]
  | cons c cs ih =>
    unfold findAux
    by_cases h : pat.isPrefixOf (c :: cs) = true
    · rw [if_pos h]
      have hpre : pat <+: c :: cs := List.isPrefixOf_iff_prefix.mp h
      simp only [Option.isSome_some, true_iff]
      exact hpre.isInfix
    · rw [if_neg h, ih (i + 1)]
      have hpre : ¬ pat <+: c :: cs := fun hh => h (List.isPrefixOf_iff_prefix.mpr hh)
      rw [List.infix_cons_iff]
      constructor
      · intro hh; exact Or.inr hh
      · intro hh
        rcases hh with hh | hh
        · exact absurd hh hpre
        · exact hh

theorem infix_length_eq_iff_suffix (pat s : List Char) (hlen : s.length = pat.length) :
    pat <:+: s ↔ pat = s := by
  constructor
  · intro h
    exact h.sublist.eq_of_length hlen.symm
  · intro h
    rw [h]

theorem suffix_iff_drop_eq (pat s : List Char) :
    pat <:+ s ↔ s.drop (s.length - pat.length) = pat := by
  constructor
  · intro h
    obtain ⟨t, rfl⟩ := h
    simp
  · intro h
    rw [← h]
    exact List.drop_suffix _ _

theorem find_zero_isSome_iff (name pat : String) (hp : pat.data ≠ []) :
    (find name pat 0).isSome = true ↔ pat.data <:+: name.data := by
  unfold find
  rw [if_neg (by omega), List.drop_zero, findAux_isSome_iff _ hp]

theorem find_end_isSome_iff (name pat : String) (hp : pat.data ≠ [])
    (hle : pat.length ≤ name.length) :
    (find name pat (name.length - pat.length)).isSome = true ↔ pat.data <:+ name.data := by
  have hn : name.length = name.data.length := rfl
  have hq : pat.length = pat.data.length := rfl
  unfold find
  rw [if_neg (by omega), findAux_isSome_iff _ hp, suffix_iff_drop_eq, hn, hq,
    infix_length_eq_iff_suffix]
  · exact eq_comm
  · rw [List.length_drop]
    omega

theorem isBlendingPath_iff (name : String) :
    isBlendingPath name = true ↔ "_blend".data <:+ name.data := by
  unfold isBlendingPath
  simp only []
  by_cases hlt : name.length < "_blend".length
  · rw [if_pos hlt]
    constructor
    · intro h; exact absurd h (by simp)
    · intro h
      have h1 : "_blend".data.length ≤ name.data.length := h.length_le
      have hn : name.length = name.data.length := rfl
      have h6 : "_blend".data.length = 6 := by decide
      have h7 : "_blend".length = 6 := by decide
      omega
  · rw [if_neg hlt]
    exact find_end_isSome_iff name "_blend" (by decide) (by omega)

theorem find_zero_guard (name pat : String) (hp : pat.data ≠ [])
    (hlt : name.length < pat.length) : (find name pat 0).isSome = false := by
  cases hb : (find name pat 0).isSome with
  | false => rfl
  | true =>
    have h1 := ((find_zero_isSome_iff name pat hp).mp hb).length_le
    have hn : name.length = name.data.length := rfl
    have hq : pat.length = pat.data.length := rfl
    omega

theorem isEdgePath_eq_find (name : String) :
    isEdgePath name = (find name "_edge" 0).isSome := by
  unfold isEdgePath
  simp only []
  by_cases hlt : name.length < "_edge".length
  · rw [if_pos hlt, find_zero_guard name "_edge" (by decide) hlt]
  · rw [if_neg hlt]

theorem isScanPath_eq_find (name : String) :
    isScanPath name = (find name "_scan" 0).isSome := by
  unfold isScanPath
  simp only []
  by_cases hlt : name.length < "_scan".length
  · rw [if_pos hlt, find_zero_guard name "_scan" (by decide) hlt]
  · rw [if_neg hlt]

theorem isEdgePath_iff (name : String) :
    isEdgePath name = true ↔ "_edge".data <:+: name.data := by
  rw [isEdgePath_eq_find, find_zero_isSome_iff name "_edge" (by decide)]

theorem isScanPath_iff (name : String) :
    isScanPath name = true ↔ "_scan".data <:+: name.data := by
  rw [isScanPath_eq_find, find_zero_isSome_iff name "_scan" (by decide)]

/-! ## C5, C6: the classifiers -/

/-- C5: `isBlendingPath name` is true exactly when `name` ends with `"_blend"`
(the search starts at `size - 6`, so only the suffix position can match);
`"foo_blend"` and `"_blend"` are blend paths, `"foo_blend_extra"`, `"_blend_x"`
and every name of fewer than 6 characters are not. -/
theorem isBlendingPath_iff_suffix :
    (∀ name : String, isBlendingPath name = true ↔ "_blend".data <:+ name.data) ∧
    (∀ name : String, isBlendingPath name = true ↔ ∃ p : String, name = p ++ "_blend") ∧
    isBlendingPath "foo_blend" = true ∧ isBlendingPath "_blend" = true ∧
    isBlendingPath "foo_blend_extra" = false ∧ isBlendingPath "_blend_x" = false ∧
    (∀ name : String, name.length < 6 → isBlendingPath name = false) := by
  refine ⟨isBlendingPath_iff, ?_, by decide, by decide, by decide, by decide, ?_⟩
  · intro name
    rw [isBlendingPath_iff]
    constructor
    · rintro ⟨t, ht⟩
      exact ⟨⟨t⟩, by apply String.ext; simp [← ht]⟩
    · rintro ⟨p, rfl⟩
      exact ⟨p.data, by simp⟩
  · intro name hlen
    cases hb : isBlendingPath name with
    | false => rfl
    | true =>
      have h1 := ((isBlendingPath_iff name).mp hb).length_le
      have hn : name.length = name.data.length := rfl
      have h6 : "_blend".data.length = 6 := by decide
      omega

/-- C5 at the name `"blend"`, which has fewer than 6 characters. -/
theorem isBlendingPath_iff_suffix_witness :
    "blend".length < 6 ∧ isBlendingPath "blend" = false :=
  ⟨by decide, isBlendingPath_iff_suffix.2.2.2.2.2.2 "blend" (by decide)⟩

/-- C6: `isEdgePath name` is true exactly when `"_edge"` occurs somewhere in
`name`, and `isScanPath name` exactly when `"_scan"` does; the length guard in
front of the search never changes the result. -/
theorem isEdgePath_isScanPath_iff_infix :
    (∀ name : String, isEdgePath name = true ↔ "_edge".data <:+: name.data) ∧
    (∀ name : String, isScanPath name = true ↔ "_scan".data <:+: name.data) ∧
    (∀ name : String, isEdgePath name = (find name "_edge" 0).isSome) ∧
    (∀ name : String, isScanPath name = (find name "_scan" 0).isSome) ∧
    isEdgePath "foo_edge_3" = true ∧ isEdgePath "foo_edgecase" = true ∧
    isScanPath "foo_scan" = true ∧ isScanPath "a_scanner_x" = true :=
  ⟨isEdgePath_iff, isScanPath_iff, isEdgePath_eq_find, isScanPath_eq_find,
    by decide, by decide, by decide, by decide⟩

/-! ## C3: the boundary filter -/

section Proofs

variable {Mesh Cloud Plan : Type}

theorem filterPolygonBoundariesLoop_eq (sv : Services Mesh Cloud Plan) (m : ℚ)
    (todo : List PolygonBoundary) (acc : PolygonBoundaryCollection) :
    filterPolygonBoundariesLoop sv m todo acc =
      acc ++ (todo.filter (keptBoundary sv m)).map (storedBoundary sv) := by
  induction todo generalizing acc with
  | nil => simp [filterPolygonBoundariesLoop]
  | cons b todo ih =>
    unfold filterPolygonBoundariesLoop
    simp only []
    by_cases hc : sv.circumference b < m
    · have hk : keptBoundary sv m b = false := by
        simp [keptBoundary, hc]
      rw [if_pos hc, ih, List.filter_cons_of_neg (by simp [hk])]
    · rw [if_neg hc]
      cases hb : sv.checkBoundary b with
      | false =>
        have hk : keptBoundary sv m b = false := by
          simp [keptBoundary, hb]
        simp only [Bool.not_false, if_true]
        rw [ih, List.filter_cons_of_neg (by simp [hk])]
      | true =>
        have hk : keptBoundary sv m b = true := by
          simp only [keptBoundary, hb, Bool.and_true, decide_eq_true_eq]
          exact not_lt.mp hc
        simp only [Bool.not_true, Bool.false_eq_true, if_false]
        rw [ih, List.filter_cons_of_pos hk, List.map_cons, List.append_assoc]
        rfl

/-- C3: `filterPolygonBoundaries bs m` is the list of the boundaries `b` of `bs`
with `circumference b ≥ m` and `checkBoundary b`, in input order, each stored as
the reversal of `filter b 0.1`. So in any collection `pre ++ b :: post` a
boundary `b` shorter than `m` or ill-formed contributes nothing, and a
well-formed boundary of circumference exactly `m` contributes its stored form
at its place. The input is a value and is not changed. -/
theorem filterPolygonBoundaries_spec (sv : Services Mesh Cloud Plan) (m : ℚ) :
    (∀ bs : PolygonBoundaryCollection,
      filterPolygonBoundaries sv bs m =
        (bs.filter (fun b => decide (m ≤ sv.circumference b) && sv.checkBoundary b)).map
          (fun b => (sv.filter b (1 / 10)).reverse)) ∧
    (∀ (pre post : PolygonBoundaryCollection) (b : PolygonBoundary),
      sv.circumference b < m →
      filterPolygonBoundaries sv (pre ++ b :: post) m =
        filterPolygonBoundaries sv pre m ++ filterPolygonBoundaries sv post m) ∧
    (∀ (pre post : PolygonBoundaryCollection) (b : PolygonBoundary),
      sv.checkBoundary b = false →
      filterPolygonBoundaries sv (pre ++ b :: post) m =
        filterPolygonBoundaries sv pre m ++ filterPolygonBoundaries sv post m) ∧
    (∀ (pre post : PolygonBoundaryCollection) (b : PolygonBoundary),
      sv.circumference b = m → sv.checkBoundary b = true →
      filterPolygonBoundaries sv (pre ++ b :: post) m =
        filterPolygonBoundaries sv pre m ++ (sv.filter b (1 / 10)).reverse ::
          filterPolygonBoundaries sv post m) := by
  have key : ∀ bs : PolygonBoundaryCollection, filterPolygonBoundaries sv bs m =
      (bs.filter (keptBoundary sv m)).map (storedBoundary sv) := by
    intro bs
    unfold filterPolygonBoundaries
    rw [filterPolygonBoundariesLoop_eq, List.nil_append]
  refine ⟨fun bs => key bs, ?_, ?_, ?_⟩
  · intro pre post b hc
    have hk : keptBoundary sv m b = false := by
      simp [keptBoundary, hc]
    rw [key, key pre, key post, List.filter_append, List.filter_cons_of_neg (by simp [hk]),
      List.map_append]
  · intro pre post b hb
    have hk : keptBoundary sv m b = false := by
      simp [keptBoundary, hb]
    rw [key, key pre, key post, List.filter_append, List.filter_cons_of_neg (by simp [hk]),
      List.map_append]
  · intro pre post b hc hb
    have hk : keptBoundary sv m b = true := by
      simp [keptBoundary, hb, hc]
    rw [key, key pre, key post, List.filter_append, List.filter_cons_of_pos hk,
      List.map_append, List.map_cons]
    rfl

/-- C3 at the test double, whose circumference is the number of points: a
boundary of four points with threshold 4 is kept, reversed. -/
theorem filterPolygonBoundaries_spec_witness :
    (demoServices 5).circumference [⟨0, 0⟩, ⟨1, 0⟩, ⟨1, 1⟩, ⟨0, 1⟩] = 4 ∧
    (demoServices 5).checkBoundary [⟨0, 0⟩, ⟨1, 0⟩, ⟨1, 1⟩, ⟨0, 1⟩] = true ∧
    filterPolygonBoundaries (demoServices 5) ([] ++ [⟨0, 0⟩, ⟨1, 0⟩, ⟨1, 1⟩, ⟨0, 1⟩] :: []) 4 =
      filterPolygonBoundaries (demoServices 5) [] 4 ++
        ((demoServices 5).filter [⟨0, 0⟩, ⟨1, 0⟩, ⟨1, 1⟩, ⟨0, 1⟩] (1 / 10)).reverse ::
          filterPolygonBoundaries (demoServices 5) [] 4 :=
  have hc : (demoServices 5).circumference [⟨0, 0⟩, ⟨1, 0⟩, ⟨1, 1⟩, ⟨0, 1⟩] = 4 := by
    simp [demoServices]
  ⟨hc, rfl, (filterPolygonBoundaries_spec (demoServices 5) 4).2.2.2 [] []
    [⟨0, 0⟩, ⟨1, 0⟩, ⟨1, 1⟩, ⟨0, 1⟩] hc rfl⟩

/-! ## C2, C10: the edge path -/

theorem size_sub_two (L : Nat) (h2 : 2 ≤ L) (hsize : L < SIZE_MODULUS) :
    sizeSub L 2 = L - 2 := by
  unfold sizeSub
  have h : L + SIZE_MODULUS - 2 = (L - 2) + SIZE_MODULUS := by omega
  rw [h, Nat.add_mod_right, Nat.mod_eq_of_lt (by omega)]

theorem requestEdgePath_of_two_le (sv : Services Mesh Cloud Plan) (boundaries : List (List Nat))
    (index : Nat) (SS : SurfaceSegmentation Cloud) (path : PoseArray)
    (h2 : 2 ≤ (sv.getBoundaryTrajectory SS boundaries index).length)
    (hsize : (sv.getBoundaryTrajectory SS boundaries index).length < SIZE_MODULUS) :
    requestEdgePath sv boundaries index SS path =
      .ok (true, ⟨path.poses ++ (trimmedTrajectory sv SS boundaries index).map (edgePose sv)⟩) := by
  unfold requestEdgePath trimmedTrajectory
  simp only []
  rw [size_sub_two _ h2 hsize, if_pos (Nat.sub_le _ _)]
  rfl

theorem edgePathStep_of_two_le (sv : Services Mesh Cloud Plan) (name : String)
    (boundary_pose : Pose) (SS : SurfaceSegmentation Cloud) (sorted_boundaries : List (List Nat))
    (i : Nat) (result : ProcessPathResult)
    (hth : BOUNDARY_THRESHOLD ≤ (sorted_boundaries.getD i []).length)
    (h2 : 2 ≤ (sv.getBoundaryTrajectory SS sorted_boundaries i).length)
    (hsize : (sv.getBoundaryTrajectory SS sorted_boundaries i).length < SIZE_MODULUS) :
    edgePathStep sv name boundary_pose SS sorted_boundaries i result =
      .ok ⟨result.paths ++ [(name ++ "_edge_" ++ toString i,
          ⟨(trimmedTrajectory sv SS sorted_boundaries i).map
            (fun p => ⟨p.position, boundary_pose.orientation⟩)⟩)]⟩ := by
  unfold edgePathStep
  rw [if_neg (by omega), requestEdgePath_of_two_le sv _ _ _ _ h2 hsize]
  simp only [List.nil_append, List.map_map]
  rfl

theorem edgePathLoop_of_two_le (sv : Services Mesh Cloud Plan) (name : String)
    (boundary_pose : Pose) (SS : SurfaceSegmentation Cloud) (sorted_boundaries : List (List Nat))
    (i : Nat) (todo : List Nat) (result : ProcessPathResult)
    (hth : BOUNDARY_THRESHOLD ≤ (sorted_boundaries.getD i []).length)
    (h2 : 2 ≤ (sv.getBoundaryTrajectory SS sorted_boundaries i).length)
    (hsize : (sv.getBoundaryTrajectory SS sorted_boundaries i).length < SIZE_MODULUS) :
    edgePathLoop sv name boundary_pose SS sorted_boundaries (i :: todo) result =
      edgePathLoop sv name boundary_pose SS sorted_boundaries todo
        ⟨result.paths ++ [(name ++ "_edge_" ++ toString i,
          ⟨(trimmedTrajectory sv SS sorted_boundaries i).map
            (fun p => ⟨p.position, boundary_pose.orientation⟩)⟩)]⟩ := by
  rw [edgePathLoop, edgePathStep_of_two_le sv name boundary_pose SS sorted_boundaries i result
    hth h2 hsize]

theorem trimmedTrajectory_length (sv : Services Mesh Cloud Plan) (SS : SurfaceSegmentation Cloud)
    (boundaries : List (List Nat)) (index : Nat) :
    (trimmedTrajectory sv SS boundaries index).length =
      (sv.getBoundaryTrajectory SS boundaries index).length - 2 := by
  unfold trimmedTrajectory
  simp only [List.length_take]
  omega

/-- C2: for a chain `i` (of at least `BOUNDARY_THRESHOLD` indices) whose boundary
trajectory has `L ≥ 3` matrices, `requestEdgePath` into an empty path returns
true with the poses of the first `L - 2` matrices in order, exactly the last two
being dropped; the edge loop of `generateProcessPath` then records them under
`<name>_edge_<i>` with every position unchanged (the translation of the matrix)
and every orientation equal to the boundary pose orientation. -/
theorem requestEdgePath_trims_two (sv : Services Mesh Cloud Plan) (name : String)
    (boundary_pose : Pose) (SS : SurfaceSegmentation Cloud) (sorted_boundaries : List (List Nat))
    (i : Nat) (result : ProcessPathResult)
    (hth : BOUNDARY_THRESHOLD ≤ (sorted_boundaries.getD i []).length)
    (hL : 3 ≤ (sv.getBoundaryTrajectory SS sorted_boundaries i).length)
    (hsize : (sv.getBoundaryTrajectory SS sorted_boundaries i).length < SIZE_MODULUS) :
    ∃ kept dropped : List Matrix4d,
      sv.getBoundaryTrajectory SS sorted_boundaries i = kept ++ dropped ∧
      dropped.length = 2 ∧
      kept.length = (sv.getBoundaryTrajectory SS sorted_boundaries i).length - 2 ∧
      requestEdgePath sv sorted_boundaries i SS ⟨[]⟩ =
        .ok (true, ⟨kept.map (fun p => poseEigenToMsg sv (Affine3d.ofMatrix p))⟩) ∧
      (∀ p ∈ kept, (poseEigenToMsg sv (Affine3d.ofMatrix p)).position = p.position) ∧
      edgePathLoop sv name boundary_pose SS sorted_boundaries [i] result =
        .ok ⟨result.paths ++ [(name ++ "_edge_" ++ toString i,
          ⟨kept.map (fun p => ⟨p.position, boundary_pose.orientation⟩)⟩)]⟩ := by
  refine ⟨trimmedTrajectory sv SS sorted_boundaries i,
    (sv.getBoundaryTrajectory SS sorted_boundaries i).drop
      ((sv.getBoundaryTrajectory SS sorted_boundaries i).length - 2), ?_, ?_, ?_, ?_, ?_, ?_⟩
  · exact (List.take_append_drop _ _).symm
  · rw [List.length_drop]
    omega
  · exact trimmedTrajectory_length sv SS sorted_boundaries i
  · rw [requestEdgePath_of_two_le sv _ _ _ _ (by omega) hsize]
    rfl
  · intro p _
    rfl
  · rw [edgePathLoop_of_two_le sv name boundary_pose SS sorted_boundaries i [] result hth
      (by omega) hsize]
    rfl

/-- C2 at the test double with a trajectory of 5 matrices. -/
theorem requestEdgePath_trims_two_witness :
    ∃ kept dropped : List Matrix4d,
      (demoServices 5).getBoundaryTrajectory demoSS [List.range 12] 0 = kept ++ dropped ∧
      dropped.length = 2 ∧
      kept.length = ((demoServices 5).getBoundaryTrajectory demoSS [List.range 12] 0).length - 2 ∧
      requestEdgePath (demoServices 5) [List.range 12] 0 demoSS ⟨[]⟩ =
        .ok (true, ⟨kept.map (fun p => poseEigenToMsg (demoServices 5) (Affine3d.ofMatrix p))⟩) ∧
      (∀ p ∈ kept, (poseEigenToMsg (demoServices 5) (Affine3d.ofMatrix p)).position = p.position) ∧
      edgePathLoop (demoServices 5) "A" ⟨⟨1, 2, 3⟩, ⟨0, 0, 0, 1⟩⟩ demoSS [List.range 12] [0] ⟨[]⟩ =
        .ok ⟨[] ++ [("A" ++ "_edge_" ++ toString 0,
          ⟨kept.map (fun p => ⟨p.position, (⟨0, 0, 0, 1⟩ : Quaternion)⟩)⟩)]⟩ :=
  requestEdgePath_trims_two (demoServices 5) "A" ⟨⟨1, 2, 3⟩, ⟨0, 0, 0, 1⟩⟩ demoSS
    [List.range 12] 0 ⟨[]⟩ (by decide) (by decide) (by simp [demoServices, SIZE_MODULUS])

theorem requestBlendPathLoop_eq (sv : Services Mesh Cloud Plan) (boundary_pose : Pose)
    (boundary_pose_eigen : Affine3d) (path_local : List Pose) (p : Pose) (out : List Pose) :
    requestBlendPathLoop sv boundary_pose boundary_pose_eigen path_local p out =
      out ++ path_local.map
        (fun lp => ⟨boundary_pose_eigen.apply lp.position, boundary_pose.orientation⟩) := by
  induction path_local generalizing p out with
  | nil => simp [requestBlendPathLoop]
  | cons pose rest ih =>
    rw [requestBlendPathLoop, ih, List.map_cons, List.append_assoc]
    rfl

/-- C4: when the blend planning call succeeds with `k` local poses,
`requestBlendPath` returns true and appends exactly `k` poses to the output
path; the `j`-th of them, for every `j < k`, has the orientation of
`boundary_pose` and the position `R * p_j + t`, where `R` is the rotation of
the boundary pose, `t` its position and `p_j` the `j`-th local position,
whatever the orientations the planner returned and although the loop variable
keeps the orientation of the previous round. -/
theorem requestBlendPath_world_poses (sv : Services Mesh Cloud Plan)
    (boundaries : PolygonBoundaryCollection) (boundary_pose : Pose)
    (params : PathPlanningParameters) (path path_local : PoseArray)
    (hcall : sv.process_path_client (blendRequest boundaries params) = some path_local) :
    ∃ appended : List Pose,
      requestBlendPath sv boundaries boundary_pose params path =
        (true, ⟨path.poses ++ appended⟩) ∧
      appended.length = path_local.poses.length ∧
      ∀ (j : Nat) (lp : Pose), path_local.poses[j]? = some lp →
        appended[j]? = some
          { position :=
              let R := sv.toRotationMatrix boundary_pose.orientation
              let t : Vector3d :=
                ⟨boundary_pose.position.x, boundary_pose.position.y, boundary_pose.position.z⟩
              let v := (R.mulVec ⟨lp.position.x, lp.position.y, lp.position.z⟩).add t
              ⟨v.x, v.y, v.z⟩
            orientation := boundary_pose.orientation } := by
  refine ⟨path_local.poses.map (fun lp =>
    ⟨(poseMsgToEigen sv boundary_pose).apply lp.position, boundary_pose.orientation⟩), ?_, ?_, ?_⟩
  · unfold requestBlendPath
    simp only []
    have hreq : sv.process_path_client
        { params := params, boundaries := boundaries, pose := ⟨⟨0, 0, 0⟩, ⟨0, 0, 0, 1⟩⟩ } =
        some path_local := hcall
    rw [hreq]
    simp only []
    rw [requestBlendPathLoop_eq]
  · rw [List.length_map]
  · intro j lp hj
    rw [List.getElem?_map, hj]
    rfl

/-- C4 at the test double with a one-boundary collection of two points. -/
theorem requestBlendPath_world_poses_witness :
    ∃ appended : List Pose,
      requestBlendPath (demoServices 5) [[⟨1, 0⟩, ⟨0, 1⟩]] ⟨⟨1, 2, 3⟩, ⟨0, 0, 1, 0⟩⟩ demoParams
        ⟨[]⟩ = (true, ⟨[] ++ appended⟩) ∧
      appended.length =
        (⟨[⟨⟨1, 0, 0⟩, ⟨1, 0, 0, 0⟩⟩, ⟨⟨0, 1, 0⟩, ⟨1, 0, 0, 0⟩⟩]⟩ : PoseArray).poses.length ∧
      ∀ (j : Nat) (lp : Pose),
        (⟨[⟨⟨1, 0, 0⟩, ⟨1, 0, 0, 0⟩⟩, ⟨⟨0, 1, 0⟩, ⟨1, 0, 0, 0⟩⟩]⟩ : PoseArray).poses[j]? = some lp →
        appended[j]? = some
          { position :=
              let R := (demoServices 5).toRotationMatrix (⟨0, 0, 1, 0⟩ : Quaternion)
              let t : Vector3d := ⟨1, 2, 3⟩
              let v := (R.mulVec ⟨lp.position.x, lp.position.y, lp.position.z⟩).add t
              ⟨v.x, v.y, v.z⟩
            orientation := ⟨0, 0, 1, 0⟩ } :=
  requestBlendPath_world_poses (demoServices 5) [[⟨1, 0⟩, ⟨0, 1⟩]] ⟨⟨1, 2, 3⟩, ⟨0, 0, 1, 0⟩⟩
    demoParams ⟨[]⟩ ⟨[⟨⟨1, 0, 0⟩, ⟨1, 0, 0, 0⟩⟩, ⟨⟨0, 1, 0⟩, ⟨1, 0, 0, 0⟩⟩]⟩ rfl

/-! ## C1: the scan path -/

theorem scanRamps_eq (s e : Pose) (poses : List Pose) :
    (List.range SCAN_APPROACH_STEP_COUNT).foldl (scanRampStep s e) poses =
      [rampPose s 4, rampPose s 3, rampPose s 2, rampPose s 1, rampPose s 0] ++ poses ++
        [rampPose e 0, rampPose e 1, rampPose e 2, rampPose e 3, rampPose e 4] := by
  have hr : List.range SCAN_APPROACH_STEP_COUNT = [0, 1, 2, 3, 4] := by decide
  rw [hr]
  simp only [List.foldl, scanRampStep, rampPose, List.cons_append, List.append_assoc,
    List.nil_append, List.singleton_append]

theorem requestScanPath_of_profile (sv : Services Mesh Cloud Plan) (front : PolygonBoundary)
    (rest : PolygonBoundaryCollection) (boundary_pose : Pose) (params : PathPlanningParameters)
    (first last : Pose)
    (hfirst : (scanProfilePoses sv front boundary_pose params).head? = some first)
    (hlast : (scanProfilePoses sv front boundary_pose params).getLast? = some last) :
    requestScanPath sv (front :: rest) boundary_pose params ⟨[]⟩ =
      .ok (true, ⟨[rampPose first 4, rampPose first 3, rampPose first 2, rampPose first 1,
          rampPose first 0] ++ scanProfilePoses sv front boundary_pose params ++
        [rampPose last 0, rampPose last 1, rampPose last 2, rampPose last 3,
          rampPose last 4]⟩) := by
  have hposes : ([] : List Pose) ++ ((sv.generateProfilimeterScanPath front params).map
      (fun pt => (⟨pt.x, pt.y, 0⟩ : Point))).map (fun point =>
        poseEigenToMsg sv ((poseMsgToEigen sv boundary_pose).translate point.x point.y point.z)) =
      scanProfilePoses sv front boundary_pose params := by
    rw [List.nil_append, List.map_map]
    rfl
  unfold requestScanPath
  simp only []
  rw [hposes, hfirst, hlast]
  simp only []
  rw [scanRamps_eq]

/-- C1: for a non-empty boundary collection whose first boundary has a scan
profile of `n ≥ 1` points, `requestScanPath` into an empty path returns true with
`n + 2 * N` poses, `N = SCAN_APPROACH_STEP_COUNT = 5`: the poses at `N .. N+n-1`
are the world-frame profile poses in profile order; for `i < N` the pose at
`N-1-i` is the first profile pose and the pose at `N+n+i` the last profile pose,
each with `x`, `y` and orientation kept and `z` increased by
`i * SCAN_APPROACH_STEP_DISTANCE`; these offsets increase strictly with `i`. -/
theorem requestScanPath_ramps (sv : Services Mesh Cloud Plan) (front : PolygonBoundary)
    (rest : PolygonBoundaryCollection) (boundary_pose : Pose) (params : PathPlanningParameters)
    (hn : 1 ≤ (sv.generateProfilimeterScanPath front params).length) :
    ∃ (first last : Pose) (out : List Pose),
      (scanProfilePoses sv front boundary_pose params).head? = some first ∧
      (scanProfilePoses sv front boundary_pose params).getLast? = some last ∧
      requestScanPath sv (front :: rest) boundary_pose params ⟨[]⟩ = .ok (true, ⟨out⟩) ∧
      out.length =
        (sv.generateProfilimeterScanPath front params).length + 2 * SCAN_APPROACH_STEP_COUNT ∧
      (∀ k : Nat, k < (sv.generateProfilimeterScanPath front params).length →
        out[SCAN_APPROACH_STEP_COUNT + k]? =
          (scanProfilePoses sv front boundary_pose params)[k]?) ∧
      (∀ i : Nat, i < SCAN_APPROACH_STEP_COUNT →
        out[SCAN_APPROACH_STEP_COUNT - 1 - i]? = some
          { position := ⟨first.position.x, first.position.y,
              first.position.z + (i : ℚ) * SCAN_APPROACH_STEP_DISTANCE⟩
            orientation := first.orientation } ∧
        out[SCAN_APPROACH_STEP_COUNT + (sv.generateProfilimeterScanPath front params).length
            + i]? = some
          { position := ⟨last.position.x, last.position.y,
              last.position.z + (i : ℚ) * SCAN_APPROACH_STEP_DISTANCE⟩
            orientation := last.orientation }) ∧
      (∀ i j : Nat, i < j →
        (i : ℚ) * SCAN_APPROACH_STEP_DISTANCE < (j : ℚ) * SCAN_APPROACH_STEP_DISTANCE) := by
  have hlen : (scanProfilePoses sv front boundary_pose params).length =
      (sv.generateProfilimeterScanPath front params).length := by
    unfold scanProfilePoses
    rw [List.length_map]
  have hne : scanProfilePoses sv front boundary_pose params ≠ [] := by
    intro h
    rw [h] at hlen
    simp only [List.length_nil] at hlen
    omega
  have hN : SCAN_APPROACH_STEP_COUNT = 5 := rfl
  refine ⟨(scanProfilePoses sv front boundary_pose params).head hne,
    (scanProfilePoses sv front boundary_pose params).getLast hne, _,
    List.head?_eq_head hne, List.getLast?_eq_getLast _ hne,
    requestScanPath_of_profile sv front rest boundary_pose params _ _
      (List.head?_eq_head hne) (List.getLast?_eq_getLast _ hne), ?_, ?_, ?_, ?_⟩
  · simp only [List.length_append, List.length_cons, List.length_nil, hlen, hN]
    omega
  · intro k hk
    rw [hN, List.getElem?_append_left (by simp [hlen]; omega),
      List.getElem?_append_right (by simp)]
    simp
  · intro i hi
    rw [hN] at hi
    constructor
    · rw [hN, List.append_assoc, List.getElem?_append_left (by simp; omega)]
      interval_cases i <;> rfl
    · have hAP : ([rampPose ((scanProfilePoses sv front boundary_pose params).head hne) 4,
          rampPose ((scanProfilePoses sv front boundary_pose params).head hne) 3,
          rampPose ((scanProfilePoses sv front boundary_pose params).head hne) 2,
          rampPose ((scanProfilePoses sv front boundary_pose params).head hne) 1,
          rampPose ((scanProfilePoses sv front boundary_pose params).head hne) 0] ++
          scanProfilePoses sv front boundary_pose params).length =
          5 + (sv.generateProfilimeterScanPath front params).length := by
        rw [List.length_append, hlen]
        rfl
      rw [hN, List.getElem?_append_right (by rw [hAP]; omega), hAP, Nat.add_sub_cancel_left]
      interval_cases i <;> rfl
  · intro i j hij
    have hd : (0 : ℚ) < SCAN_APPROACH_STEP_DISTANCE := by
      unfold SCAN_APPROACH_STEP_DISTANCE
      norm_num
    have hc : (i : ℚ) < (j : ℚ) := by exact_mod_cast hij
    exact mul_lt_mul_of_pos_right hc hd

/-- C1 at the test double: a scan profile of three points. -/
theorem requestScanPath_ramps_witness :
    ∃ (first last : Pose) (out : List Pose),
      (scanProfilePoses (demoServices 5) [⟨0, 0⟩, ⟨1, 0⟩, ⟨1, 1⟩] ⟨⟨1, 2, 3⟩, ⟨0, 0, 0, 1⟩⟩
        demoParams).head? = some first ∧
      (scanProfilePoses (demoServices 5) [⟨0, 0⟩, ⟨1, 0⟩, ⟨1, 1⟩] ⟨⟨1, 2, 3⟩, ⟨0, 0, 0, 1⟩⟩
        demoParams).getLast? = some last ∧
      requestScanPath (demoServices 5) [[⟨0, 0⟩, ⟨1, 0⟩, ⟨1, 1⟩]] ⟨⟨1, 2, 3⟩, ⟨0, 0, 0, 1⟩⟩
        demoParams ⟨[]⟩ = .ok (true, ⟨out⟩) ∧
      out.length = 3 + 2 * SCAN_APPROACH_STEP_COUNT ∧
      (∀ k : Nat, k < 3 →
        out[SCAN_APPROACH_STEP_COUNT + k]? =
          (scanProfilePoses (demoServices 5) [⟨0, 0⟩, ⟨1, 0⟩, ⟨1, 1⟩]
            ⟨⟨1, 2, 3⟩, ⟨0, 0, 0, 1⟩⟩ demoParams)[k]?) ∧
      (∀ i : Nat, i < SCAN_APPROACH_STEP_COUNT →
        out[SCAN_APPROACH_STEP_COUNT - 1 - i]? = some
          { position := ⟨first.position.x, first.position.y,
              first.position.z + (i : ℚ) * SCAN_APPROACH_STEP_DISTANCE⟩
            orientation := first.orientation } ∧
        out[SCAN_APPROACH_STEP_COUNT + 3 + i]? = some
          { position := ⟨last.position.x, last.position.y,
              last.position.z + (i : ℚ) * SCAN_APPROACH_STEP_DISTANCE⟩
            orientation := last.orientation }) ∧
      (∀ i j : Nat, i < j →
        (i : ℚ) * SCAN_APPROACH_STEP_DISTANCE < (j : ℚ) * SCAN_APPROACH_STEP_DISTANCE) :=
  requestScanPath_ramps (demoServices 5) [⟨0, 0⟩, ⟨1, 0⟩, ⟨1, 1⟩] []
    ⟨⟨1, 2, 3⟩, ⟨0, 0, 0, 1⟩⟩ demoParams (by decide)

/-! ## Builders that return false leave the other builders alone -/

theorem edgePathStep_prepend (sv : Services Mesh Cloud Plan) (name : String)
    (boundary_pose : Pose) (SS : SurfaceSegmentation Cloud) (sorted_boundaries : List (List Nat))
    (i : Nat) (result : ProcessPathResult) :
    edgePathStep sv name boundary_pose SS sorted_boundaries i result =
      match edgePathStep sv name boundary_pose SS sorted_boundaries i ⟨[]⟩ with
      | .error e => .error e
      | .ok r => .ok ⟨result.paths ++ r.paths⟩ := by
  unfold edgePathStep
  by_cases h : (sorted_boundaries.getD i []).length < BOUNDARY_THRESHOLD
  · rw [if_pos h, if_pos h]
    simp only [List.append_nil]
  · rw [if_neg h, if_neg h]
    cases hreq : requestEdgePath sv sorted_boundaries i SS ⟨[]⟩ with
    | error e => rfl
    | ok r =>
      obtain ⟨flag, poses⟩ := r
      cases flag <;> simp

theorem edgePathLoop_prepend (sv : Services Mesh Cloud Plan) (name : String)
    (boundary_pose : Pose) (SS : SurfaceSegmentation Cloud) (sorted_boundaries : List (List Nat))
    (todo : List Nat) (result : ProcessPathResult) :
    edgePathLoop sv name boundary_pose SS sorted_boundaries todo result =
      match edgePathLoop sv name boundary_pose SS sorted_boundaries todo ⟨[]⟩ with
      | .error e => .error e
      | .ok r => .ok ⟨result.paths ++ r.paths⟩ := by
  induction todo generalizing result with
  | nil => simp [edgePathLoop]
  | cons i todo ih =>
    rw [edgePathLoop, edgePathLoop, edgePathStep_prepend]
    cases hstep : edgePathStep sv name boundary_pose SS sorted_boundaries i ⟨[]⟩ with
    | error e => rfl
    | ok r =>
      simp only []
      rw [ih, ih r]
      cases edgePathLoop sv name boundary_pose SS sorted_boundaries todo ⟨[]⟩ with
      | error e => rfl
      | ok r2 => simp [List.append_assoc]

theorem generateProcessPath_eq_assemble (sv : Services Mesh Cloud Plan) (id : Int)
    (name : String) (mesh : Mesh) (surface : Cloud) (params : PathPlanningParameters)
    (hmesh : sv.calculateSimpleBoundary mesh = true) :
    generateProcessPath sv id name mesh surface params =
      assembleEntries
        (blendEntries sv name
          (filterPolygonBoundaries sv (sv.getBoundaries mesh) MIN_BOUNDARY_LENGTH)
          (sv.getPose mesh) params)
        (edgeEntries sv name surface (sv.getPose mesh))
        (scanEntries sv name
          (filterPolygonBoundaries sv (sv.getBoundaries mesh) MIN_BOUNDARY_LENGTH)
          (sv.getPose mesh) params) := by
  unfold generateProcessPath assembleEntries blendEntries edgeEntries scanEntries
  simp only [hmesh, Bool.not_true, Bool.false_eq_true, if_false, List.nil_append]
  rw [edgePathLoop_prepend]
  generalize requestBlendPath sv
    (filterPolygonBoundaries sv (sv.getBoundaries mesh) MIN_BOUNDARY_LENGTH)
    (sv.getPose mesh) params ⟨[]⟩ = rb
  cases edgePathLoop sv name (sv.getPose mesh) (segmentationOf surface)
      (computeBoundaries sv (segmentationOf surface))
      (List.range (computeBoundaries sv (segmentationOf surface)).length) ⟨[]⟩ with
  | error e => rfl
  | ok E =>
    simp only []
    cases requestScanPath sv
        (filterPolygonBoundaries sv (sv.getBoundaries mesh) MIN_BOUNDARY_LENGTH)
        (sv.getPose mesh) params ⟨[]⟩ with
    | error e => rfl
    | ok r =>
      obtain ⟨flag, poses⟩ := r
      obtain ⟨bflag, bposes⟩ := rb
      cases flag <;> cases bflag <;> simp

theorem filterPolygonBoundaries_congr (sv sv2 : Services Mesh Cloud Plan)
    (h1 : sv2.circumference = sv.circumference) (h2 : sv2.checkBoundary = sv.checkBoundary)
    (h3 : sv2.filter = sv.filter) (bs : PolygonBoundaryCollection) (m : ℚ) :
    filterPolygonBoundaries sv2 bs m = filterPolygonBoundaries sv bs m := by
  unfold filterPolygonBoundaries
  rw [filterPolygonBoundariesLoop_eq, filterPolygonBoundariesLoop_eq]
  unfold keptBoundary storedBoundary
  rw [h1, h2, h3]

theorem edgePathLoop_congr (sv sv2 : Services Mesh Cloud Plan) (name : String)
    (boundary_pose : Pose) (SS : SurfaceSegmentation Cloud) (sorted_boundaries : List (List Nat))
    (hstep : ∀ (i : Nat) (result : ProcessPathResult),
      edgePathStep sv2 name boundary_pose SS sorted_boundaries i result =
        edgePathStep sv name boundary_pose SS sorted_boundaries i result)
    (todo : List Nat) (result : ProcessPathResult) :
    edgePathLoop sv2 name boundary_pose SS sorted_boundaries todo result =
      edgePathLoop sv name boundary_pose SS sorted_boundaries todo result := by
  induction todo generalizing result with
  | nil => rw [edgePathLoop, edgePathLoop]
  | cons i todo ih =>
    rw [edgePathLoop, edgePathLoop, hstep]
    cases edgePathStep sv name boundary_pose SS sorted_boundaries i result with
    | error e => rfl
    | ok r => exact ih r

theorem edgeEntries_update (sv : Services Mesh Cloud Plan)
    (c : PathPlanningRequest → Option PoseArray)
    (g : PolygonBoundary → PathPlanningParameters → PolygonBoundary)
    (name : String) (surface : Cloud) (boundary_pose : Pose) :
    edgeEntries ((sv.withBlendClient c).withScanProfile g) name surface boundary_pose =
      edgeEntries sv name surface boundary_pose := by
  unfold edgeEntries
  have hc : computeBoundaries ((sv.withBlendClient c).withScanProfile g)
      (segmentationOf surface) = computeBoundaries sv (segmentationOf surface) := rfl
  rw [hc, edgePathLoop_congr sv ((sv.withBlendClient c).withScanProfile g)]
  intro i result
  have hreq : ∀ p : PoseArray,
      requestEdgePath ((sv.withBlendClient c).withScanProfile g)
        (computeBoundaries sv (segmentationOf surface)) i (segmentationOf surface) p =
      requestEdgePath sv (computeBoundaries sv (segmentationOf surface)) i
        (segmentationOf surface) p := fun _ => rfl
  unfold edgePathStep
  rw [hreq]

theorem blendEntries_update (sv : Services Mesh Cloud Plan)
    (c : PathPlanningRequest → Option PoseArray)
    (g : PolygonBoundary → PathPlanningParameters → PolygonBoundary)
    (name : String) (fb : PolygonBoundaryCollection) (boundary_pose : Pose)
    (params : PathPlanningParameters) :
    blendEntries ((sv.withBlendClient c).withScanProfile g) name fb boundary_pose params =
      blendEntries (sv.withBlendClient c) name fb boundary_pose params := by
  have hreq : requestBlendPath ((sv.withBlendClient c).withScanProfile g) fb boundary_pose
      params ⟨[]⟩ = requestBlendPath (sv.withBlendClient c) fb boundary_pose params ⟨[]⟩ := by
    unfold requestBlendPath
    simp only [requestBlendPathLoop_eq]
    rfl
  unfold blendEntries
  rw [hreq]

theorem scanEntries_update (sv : Services Mesh Cloud Plan)
    (c : PathPlanningRequest → Option PoseArray)
    (g : PolygonBoundary → PathPlanningParameters → PolygonBoundary)
    (name : String) (fb : PolygonBoundaryCollection) (boundary_pose : Pose)
    (params : PathPlanningParameters) :
    scanEntries ((sv.withBlendClient c).withScanProfile g) name fb boundary_pose params =
      scanEntries (sv.withScanProfile g) name fb boundary_pose params := by
  have hreq : requestScanPath ((sv.withBlendClient c).withScanProfile g) fb boundary_pose
      params ⟨[]⟩ = requestScanPath (sv.withScanProfile g) fb boundary_pose params ⟨[]⟩ := rfl
  unfold scanEntries
  rw [hreq]

/-- Isolation of the builders that fail by returning false. For a surface whose
mesh boundary calculation succeeds, the result of `generateProcessPath` is the
blend entry, then the edge entries, then the scan entry, each computed by its
own builder. Whatever the blend planning service `c` answers (success or
failure), the edge entries and the scan entry are the same; whatever scan
profile generator `g` is used, the blend entry and the edge entries are the
same. A builder that returns false contributes no entry, one that returns true
contributes exactly its named path. A builder that does not return
(`Except.error`) makes the whole call `Except.error`: see
`generateProcessPath_fault_drops_siblings`. -/
theorem generateProcessPath_isolates_failures (sv : Services Mesh Cloud Plan) (id : Int)
    (name : String) (mesh : Mesh) (surface : Cloud) (params : PathPlanningParameters)
    (hmesh : sv.calculateSimpleBoundary mesh = true) :
    (∀ (c : PathPlanningRequest → Option PoseArray)
        (g : PolygonBoundary → PathPlanningParameters → PolygonBoundary),
      generateProcessPath ((sv.withBlendClient c).withScanProfile g) id name mesh surface
          params =
        assembleEntries
          (blendEntries (sv.withBlendClient c) name
            (filterPolygonBoundaries sv (sv.getBoundaries mesh) MIN_BOUNDARY_LENGTH)
            (sv.getPose mesh) params)
          (edgeEntries sv name surface (sv.getPose mesh))
          (scanEntries (sv.withScanProfile g) name
            (filterPolygonBoundaries sv (sv.getBoundaries mesh) MIN_BOUNDARY_LENGTH)
            (sv.getPose mesh) params)) ∧
    (∀ (c : PathPlanningRequest → Option PoseArray) (fb : PolygonBoundaryCollection)
        (pose : Pose) (p : PoseArray),
      (requestBlendPath (sv.withBlendClient c) fb pose params ⟨[]⟩ = (false, p) →
        blendEntries (sv.withBlendClient c) name fb pose params = []) ∧
      (requestBlendPath (sv.withBlendClient c) fb pose params ⟨[]⟩ = (true, p) →
        blendEntries (sv.withBlendClient c) name fb pose params = [(name ++ "_blend", p)])) ∧
    (∀ (g : PolygonBoundary → PathPlanningParameters → PolygonBoundary)
        (fb : PolygonBoundaryCollection) (pose : Pose) (p : PoseArray),
      (requestScanPath (sv.withScanProfile g) fb pose params ⟨[]⟩ = .ok (false, p) →
        scanEntries (sv.withScanProfile g) name fb pose params = .ok []) ∧
      (requestScanPath (sv.withScanProfile g) fb pose params ⟨[]⟩ = .ok (true, p) →
        scanEntries (sv.withScanProfile g) name fb pose params =
          .ok [(name ++ "_scan", p)])) := by
  refine ⟨?_, ?_, ?_⟩
  · intro c g
    have hm : ((sv.withBlendClient c).withScanProfile g).calculateSimpleBoundary mesh = true :=
      hmesh
    rw [generateProcessPath_eq_assemble _ id name mesh surface params hm,
      filterPolygonBoundaries_congr sv ((sv.withBlendClient c).withScanProfile g) rfl rfl rfl]
    have hb : ((sv.withBlendClient c).withScanProfile g).getBoundaries mesh =
        sv.getBoundaries mesh := rfl
    have hp : ((sv.withBlendClient c).withScanProfile g).getPose mesh = sv.getPose mesh := rfl
    rw [hb, hp, edgeEntries_update, blendEntries_update, scanEntries_update]
  · intro c fb pose p
    constructor
    · intro h
      unfold blendEntries
      rw [h]
    · intro h
      unfold blendEntries
      rw [h]
  · intro g fb pose p
    constructor
    · intro h
      unfold scanEntries
      rw [h]
    · intro h
      unfold scanEntries
      rw [h]

/-! ## C7: the motion library -/

theorem assign_keys (lib : TrajectoryLibrary Plan) (key : String) (plan : Plan) :
    (TrajectoryLibrary.assign lib key plan).map Prod.fst =
      if key ∈ lib.map Prod.fst then lib.map Prod.fst else lib.map Prod.fst ++ [key] := by
  induction lib with
  | nil => simp [TrajectoryLibrary.assign]
  | cons kv rest ih =>
    obtain ⟨k, v⟩ := kv
    rw [TrajectoryLibrary.assign]
    by_cases h : key = k
    · subst h
      simp
    · rw [if_neg h, List.map_cons, ih]
      by_cases hm : key ∈ rest.map Prod.fst
      · rw [if_pos hm, if_pos (by simp only [List.map_cons, List.mem_cons]; exact Or.inr hm)]
        rfl
      · rw [if_neg hm, if_neg (by
          simp only [List.map_cons, List.mem_cons, not_or]
          exact ⟨h, hm⟩)]
        rfl

theorem assign_nodup (lib : TrajectoryLibrary Plan) (key : String) (plan : Plan)
    (h : (lib.map Prod.fst).Nodup) :
    ((TrajectoryLibrary.assign lib key plan).map Prod.fst).Nodup := by
  rw [assign_keys]
  by_cases hm : key ∈ lib.map Prod.fst
  · rw [if_pos hm]
    exact h
  · rw [if_neg hm]
    exact List.Nodup.append h (List.nodup_singleton key) (by
      intro x hx hx2
      rw [List.mem_singleton] at hx2
      exact hm (hx2 ▸ hx))

theorem lookup_assign (lib : TrajectoryLibrary Plan) (key : String) (plan : Plan)
    (name : String) :
    TrajectoryLibrary.lookup (TrajectoryLibrary.assign lib key plan) name =
      if name = key then some plan else TrajectoryLibrary.lookup lib name := by
  induction lib with
  | nil =>
    simp [TrajectoryLibrary.assign, TrajectoryLibrary.lookup]
  | cons kv rest ih =>
    obtain ⟨k, v⟩ := kv
    rw [TrajectoryLibrary.assign]
    by_cases h : key = k
    · subst h
      rw [if_pos rfl]
      simp only [TrajectoryLibrary.lookup]
      by_cases hn : name = key
      · rw [if_pos hn, if_pos hn]
      · rw [if_neg hn, if_neg hn, if_neg hn]
    · rw [if_neg h]
      simp only [TrajectoryLibrary.lookup]
      rw [ih]
      by_cases hn : name = k
      · have hnk : name ≠ key := fun hh => h (hh.symm.trans hn)
        rw [if_pos hn, if_neg hnk, if_pos hn]
      · rw [if_neg hn, if_neg hn]

theorem mem_of_lookup (lib : TrajectoryLibrary Plan) (name : String) (plan : Plan)
    (h : TrajectoryLibrary.lookup lib name = some plan) : (name, plan) ∈ lib := by
  induction lib with
  | nil => simp [TrajectoryLibrary.lookup] at h
  | cons kv rest ih =>
    obtain ⟨k, v⟩ := kv
    simp only [TrajectoryLibrary.lookup] at h
    by_cases hn : name = k
    · rw [if_pos hn] at h
      injection h with h
      rw [hn, h]
      exact List.mem_cons_self _ _
    · rw [if_neg hn] at h
      exact List.mem_cons_of_mem _ (ih h)

theorem filter_of_nodup_mem (lib : TrajectoryLibrary Plan) (name : String) (plan : Plan)
    (hnd : (lib.map Prod.fst).Nodup) (hmem : (name, plan) ∈ lib) :
    lib.filter (fun kv => decide (kv.1 = name)) = [(name, plan)] := by
  induction lib with
  | nil => simp at hmem
  | cons kv rest ih =>
    rw [List.map_cons, List.nodup_cons] at hnd
    rcases List.mem_cons.mp hmem with hh | hh
    · subst hh
      have hrest : rest.filter (fun kv => decide (kv.1 = name)) = [] := by
        rw [List.filter_eq_nil_iff]
        intro x hx hx2
        have hx3 : x.1 = name := of_decide_eq_true hx2
        exact hnd.1 (List.mem_map.mpr ⟨x, hx, hx3⟩)
      rw [List.filter_cons_of_pos (by simp), hrest]
    · have hne : kv.1 ≠ name := by
        intro hk
        exact hnd.1 (List.mem_map.mpr ⟨(name, plan), hh, hk.symm⟩)
      rw [List.filter_cons_of_neg (by simp [hne]), ih hnd.2 hh]

theorem insertAll_nodup (entries : List (String × Plan)) (lib : TrajectoryLibrary Plan)
    (h : (lib.map Prod.fst).Nodup) : ((insertAll entries lib).map Prod.fst).Nodup := by
  induction entries generalizing lib with
  | nil => exact h
  | cons kv rest ih =>
    unfold insertAll
    rw [List.foldl_cons]
    exact ih _ (assign_nodup lib kv.1 kv.2 h)

theorem insertAll_append (xs ys : List (String × Plan)) (lib : TrajectoryLibrary Plan) :
    insertAll (xs ++ ys) lib = insertAll ys (insertAll xs lib) := by
  unfold insertAll
  rw [List.foldl_append]

theorem lookup_insertAll_of_not_mem (entries : List (String × Plan))
    (lib : TrajectoryLibrary Plan) (name : String) (h : ∀ kv ∈ entries, kv.1 ≠ name) :
    TrajectoryLibrary.lookup (insertAll entries lib) name = TrajectoryLibrary.lookup lib name := by
  induction entries generalizing lib with
  | nil => rfl
  | cons kv rest ih =>
    unfold insertAll
    rw [List.foldl_cons]
    have h1 := ih (TrajectoryLibrary.assign lib kv.1 kv.2)
      (fun x hx => h x (List.mem_cons_of_mem _ hx))
    unfold insertAll at h1
    rw [h1, lookup_assign, if_neg (fun hh => h kv (List.mem_cons_self _ _) hh.symm)]

theorem lookup_insertAll_last (before after : List (String × Plan)) (name : String)
    (plan : Plan) (lib : TrajectoryLibrary Plan) (h : ∀ kv ∈ after, kv.1 ≠ name) :
    TrajectoryLibrary.lookup (insertAll (before ++ (name, plan) :: after) lib) name =
      some plan := by
  rw [insertAll_append]
  have hc : insertAll ((name, plan) :: after) (insertAll before lib) =
      insertAll after (TrajectoryLibrary.assign (insertAll before lib) name plan) := rfl
  rw [hc, lookup_insertAll_of_not_mem _ _ _ h, lookup_assign, if_pos rfl]

theorem storePlansLoop_eq (plans : List (String × Plan)) (lib : TrajectoryLibrary Plan) :
    storePlansLoop plans lib = insertAll plans lib := by
  induction plans generalizing lib with
  | nil => rfl
  | cons kv rest ih =>
    rw [storePlansLoop, ih]
    rfl

theorem planPathsLoop_eq (sv : Services Mesh Cloud Plan) (blend_params : BlendingPlanParameters)
    (scan_params : ScanPlanParameters) (paths : List NamedPath) (lib : TrajectoryLibrary Plan) :
    planPathsLoop sv blend_params scan_params paths lib =
      insertAll (paths.flatMap (fun vt =>
        (generateProcessPlan sv vt.1 vt.2 blend_params scan_params).plans)) lib := by
  induction paths generalizing lib with
  | nil => rfl
  | cons vt rest ih =>
    rw [planPathsLoop, ih, storePlansLoop_eq, List.flatMap_cons, insertAll_append]

theorem motionLibraryLoop_eq (sv : Services Mesh Cloud Plan) (params : PathPlanningParameters)
    (ids : List Int) (lib : TrajectoryLibrary Plan) (acc : ProcessPathResults) :
    motionLibraryLoop sv params ids (lib, acc) =
      match allSurfacePaths sv params ids with
      | .error e => .error e
      | .ok rs =>
        .ok (insertAll (allPlannedEntries sv params rs) lib,
          rs.foldl (fun a r => classifyPathsLoop r.paths a) acc) := by
  induction ids generalizing lib acc with
  | nil => rfl
  | cons id ids ih =>
    rw [motionLibraryLoop, allSurfacePaths]
    cases generateProcessPathById sv id params with
    | error e => rfl
    | ok r =>
      simp only []
      rw [ih]
      cases allSurfacePaths sv params ids with
      | error e => rfl
      | ok rs =>
        simp only [allPlannedEntries, plannedEntries, planPathsLoop_eq, List.flatMap_cons,
          insertAll_append, List.foldl_cons]

/-- C7: the library that `generateMotionLibrary` returns is the result of
inserting with overwrite, into the empty map, the named plans of all
successfully planned paths, surface after surface in the order of the selected
ids and path after path within a surface (when a surface faults, so does the
call). In a map built this way every key occurs once, and for a name whose last
entry in that sequence is `(name, plan)` the map holds exactly the entry
`(name, plan)`: the later write wins. -/
theorem generateMotionLibrary_last_write_wins (sv : Services Mesh Cloud Plan)
    (params : PathPlanningParameters) :
    generateMotionLibrary sv params =
      (match allSurfacePaths sv params sv.getSelectedIds with
      | .error e => .error e
      | .ok rs =>
        .ok (insertAll (allPlannedEntries sv params rs) [],
          rs.foldl (fun a r => classifyPathsLoop r.paths a) ⟨[], [], []⟩)) ∧
    ∀ entries : List (String × Plan),
      ((insertAll entries []).map Prod.fst).Nodup ∧
      ∀ (before after : List (String × Plan)) (name : String) (plan : Plan),
        entries = before ++ (name, plan) :: after → (∀ kv ∈ after, kv.1 ≠ name) →
        TrajectoryLibrary.lookup (insertAll entries []) name = some plan ∧
        (insertAll entries []).filter (fun kv => decide (kv.1 = name)) = [(name, plan)] := by
  refine ⟨?_, ?_⟩
  · unfold generateMotionLibrary
    exact motionLibraryLoop_eq sv params sv.getSelectedIds [] ⟨[], [], []⟩
  · intro entries
    have hnd : ((insertAll entries ([] : TrajectoryLibrary Plan)).map Prod.fst).Nodup :=
      insertAll_nodup entries [] List.nodup_nil
    refine ⟨hnd, ?_⟩
    intro before after name plan hsplit hafter
    have hlook : TrajectoryLibrary.lookup (insertAll entries []) name = some plan := by
      rw [hsplit]
      exact lookup_insertAll_last before after name plan [] hafter
    exact ⟨hlook, filter_of_nodup_mem _ name plan hnd (mem_of_lookup _ name plan hlook)⟩

/-- C7 at the test double: the two selected surfaces are both named `"A"` and
each yields a planned path `A_blend` (plans 4 and 5); the library holds one
entry for `A_blend`, with the plan 5 of the second surface. -/
theorem generateMotionLibrary_last_write_wins_witness :
    (demoServices 5).getSelectedIds = [1, 2] ∧
    (demoServices 5).getSurfaceName 1 = "A" ∧ (demoServices 5).getSurfaceName 2 = "A" ∧
    ∃ (rs : List ProcessPathResult) (acc : ProcessPathResults),
      demoResults = .ok rs ∧
      allPlannedEntries (demoServices 5) demoParams rs = demoEntries ∧
      generateMotionLibrary (demoServices 5) demoParams = .ok (insertAll demoEntries [], acc) ∧
      insertAll demoEntries [] = [("A_blend", 5), ("A_edge_0", 3), ("A_scan", 115)] ∧
      TrajectoryLibrary.lookup (insertAll demoEntries []) "A_blend" = some 5 ∧
      (insertAll demoEntries []).filter (fun kv => decide (kv.1 = "A_blend")) =
        [("A_blend", 5)] := by
  have hrs : ∃ rs, demoResults = .ok rs ∧
      allPlannedEntries (demoServices 5) demoParams rs = demoEntries :=
    ⟨_, by with_unfolding_all rfl, by with_unfolding_all rfl⟩
  obtain ⟨rs, h1, h2⟩ := hrs
  have hthm := generateMotionLibrary_last_write_wins (demoServices 5) demoParams
  have hlib := hthm.1
  have h1b : allSurfacePaths (demoServices 5) demoParams (demoServices 5).getSelectedIds =
      .ok rs := h1
  rw [h1b] at hlib
  simp only [h2] at hlib
  have hlast := (hthm.2 demoEntries).2 [("A_blend", 4), ("A_edge_0", 3), ("A_scan", 114)]
    [("A_edge_0", 3), ("A_scan", 115)] "A_blend" 5 rfl (by decide)
  exact ⟨rfl, rfl, rfl, rs, _, h1, h2, hlib, by decide, hlast.1, hlast.2⟩

/-- The isolation of a blend planning service that fails, at the test double. -/
theorem generateProcessPath_isolates_failures_witness :
    (demoServices 5).calculateSimpleBoundary 1 = true ∧
    generateProcessPath
        (((demoServices 5).withBlendClient (fun _ => none)).withScanProfile
          (demoServices 5).generateProfilimeterScanPath) 1 "A" 1 () demoParams =
      assembleEntries
        (blendEntries ((demoServices 5).withBlendClient (fun _ => none)) "A"
          (filterPolygonBoundaries (demoServices 5) ((demoServices 5).getBoundaries 1)
            MIN_BOUNDARY_LENGTH)
          ((demoServices 5).getPose 1) demoParams)
        (edgeEntries (demoServices 5) "A" () ((demoServices 5).getPose 1))
        (scanEntries ((demoServices 5).withScanProfile
            (demoServices 5).generateProfilimeterScanPath) "A"
          (filterPolygonBoundaries (demoServices 5) ((demoServices 5).getBoundaries 1)
            MIN_BOUNDARY_LENGTH)
          ((demoServices 5).getPose 1) demoParams) :=
  ⟨rfl, (generateProcessPath_isolates_failures (demoServices 5) 1 "A" 1 () demoParams rfl).1
    (fun _ => none) (demoServices 5).generateProfilimeterScanPath⟩

/-! ## C9: names that no classifier accepts -/

theorem recognized_blend_name (name : String) : recognized (name ++ "_blend") = true := by
  have h : isBlendingPath (name ++ "_blend") = true := by
    rw [isBlendingPath_iff, String.data_append]
    exact List.suffix_append _ _
  simp [recognized, h]

theorem recognized_edge_name (name : String) (i : Nat) :
    recognized (name ++ "_edge_" ++ toString i) = true := by
  have h : isEdgePath (name ++ "_edge_" ++ toString i) = true := by
    rw [isEdgePath_iff, String.data_append, String.data_append]
    exact ⟨name.data, '_' :: (toString i).data, by
      have h5 : "_edge_".data = "_edge".data ++ ['_'] := by decide
      rw [h5]
      simp⟩
  simp [recognized, h]

theorem recognized_scan_name (name : String) : recognized (name ++ "_scan") = true := by
  have h : isScanPath (name ++ "_scan") = true := by
    rw [isScanPath_iff, String.data_append]
    exact (List.suffix_append _ _).isInfix
  simp [recognized, h]

theorem edgePathStep_names (sv : Services Mesh Cloud Plan) (name : String)
    (boundary_pose : Pose) (SS : SurfaceSegmentation Cloud) (sorted_boundaries : List (List Nat))
    (i : Nat) (result r : ProcessPathResult)
    (h : edgePathStep sv name boundary_pose SS sorted_boundaries i result = .ok r)
    (hres : ∀ vt ∈ result.paths, recognized vt.1 = true) :
    ∀ vt ∈ r.paths, recognized vt.1 = true := by
  unfold edgePathStep at h
  by_cases hlt : (sorted_boundaries.getD i []).length < BOUNDARY_THRESHOLD
  · rw [if_pos hlt] at h
    injection h with h
    rw [← h]
    exact hres
  · rw [if_neg hlt] at h
    cases hreq : requestEdgePath sv sorted_boundaries i SS ⟨[]⟩ with
    | error e =>
      rw [hreq] at h
      exact absurd h (by simp)
    | ok res =>
      obtain ⟨flag, poses⟩ := res
      rw [hreq] at h
      cases flag with
      | false =>
        injection h with h
        rw [← h]
        exact hres
      | true =>
        injection h with h
        rw [← h]
        intro vt hvt
        rcases List.mem_append.mp hvt with hh | hh
        · exact hres vt hh
        · rw [List.mem_singleton] at hh
          rw [hh]
          exact recognized_edge_name name i

theorem edgePathLoop_names (sv : Services Mesh Cloud Plan) (name : String)
    (boundary_pose : Pose) (SS : SurfaceSegmentation Cloud) (sorted_boundaries : List (List Nat))
    (todo : List Nat) (result r : ProcessPathResult)
    (h : edgePathLoop sv name boundary_pose SS sorted_boundaries todo result = .ok r)
    (hres : ∀ vt ∈ result.paths, recognized vt.1 = true) :
    ∀ vt ∈ r.paths, recognized vt.1 = true := by
  induction todo generalizing result with
  | nil =>
    rw [edgePathLoop] at h
    injection h with h
    rw [← h]
    exact hres
  | cons i todo ih =>
    rw [edgePathLoop] at h
    cases hstep : edgePathStep sv name boundary_pose SS sorted_boundaries i result with
    | error e =>
      rw [hstep] at h
      exact absurd h (by simp)
    | ok r1 =>
      rw [hstep] at h
      exact ih r1 h (edgePathStep_names sv name boundary_pose SS sorted_boundaries i result r1
        hstep hres)

theorem generateProcessPath_names (sv : Services Mesh Cloud Plan) (id : Int) (name : String)
    (mesh : Mesh) (surface : Cloud) (params : PathPlanningParameters) (r : ProcessPathResult)
    (h : generateProcessPath sv id name mesh surface params = .ok r) :
    ∀ vt ∈ r.paths, recognized vt.1 = true := by
  cases hmesh : sv.calculateSimpleBoundary mesh with
  | false =>
    unfold generateProcessPath at h
    simp only [hmesh, Bool.not_false, if_true] at h
    injection h with h
    rw [← h]
    intro vt hvt
    exact absurd hvt (List.not_mem_nil _)
  | true =>
    rw [generateProcessPath_eq_assemble sv id name mesh surface params hmesh] at h
    unfold assembleEntries at h
    cases hE : edgeEntries sv name surface (sv.getPose mesh) with
    | error e =>
      rw [hE] at h
      exact absurd h (by simp)
    | ok E =>
      rw [hE] at h
      cases hS : scanEntries sv name
          (filterPolygonBoundaries sv (sv.getBoundaries mesh) MIN_BOUNDARY_LENGTH)
          (sv.getPose mesh) params with
      | error e =>
        rw [hS] at h
        exact absurd h (by simp)
      | ok S =>
        rw [hS] at h
        injection h with h
        rw [← h]
        intro vt hvt
        rcases List.mem_append.mp hvt with hh | hh
        · rcases List.mem_append.mp hh with hb | he
          · unfold blendEntries at hb
            generalize requestBlendPath sv
              (filterPolygonBoundaries sv (sv.getBoundaries mesh) MIN_BOUNDARY_LENGTH)
              (sv.getPose mesh) params ⟨[]⟩ = rb at hb
            obtain ⟨bflag, bposes⟩ := rb
            cases bflag with
            | false => exact absurd hb (List.not_mem_nil _)
            | true =>
              rw [List.mem_singleton] at hb
              rw [hb]
              exact recognized_blend_name name
          · unfold edgeEntries at hE
            cases hloop : edgePathLoop sv name (sv.getPose mesh) (segmentationOf surface)
                (computeBoundaries sv (segmentationOf surface))
                (List.range (computeBoundaries sv (segmentationOf surface)).length) ⟨[]⟩ with
            | error e =>
              rw [hloop] at hE
              exact absurd hE (by simp)
            | ok re =>
              rw [hloop] at hE
              injection hE with hE
              rw [← hE] at he
              exact edgePathLoop_names sv name (sv.getPose mesh) (segmentationOf surface) _ _
                ⟨[]⟩ re hloop (fun vt hvt => absurd hvt (List.not_mem_nil _)) vt he
        · unfold scanEntries at hS
          cases hreq : requestScanPath sv
              (filterPolygonBoundaries sv (sv.getBoundaries mesh) MIN_BOUNDARY_LENGTH)
              (sv.getPose mesh) params ⟨[]⟩ with
          | error e =>
            rw [hreq] at hS
            exact absurd hS (by simp)
          | ok res =>
            obtain ⟨flag, poses⟩ := res
            rw [hreq] at hS
            cases flag with
            | false =>
              injection hS with hS
              rw [← hS] at hh
              exact absurd hh (List.not_mem_nil _)
            | true =>
              injection hS with hS
              rw [← hS, List.mem_singleton] at hh
              rw [hh]
              exact recognized_scan_name name

theorem allSurfacePaths_names (sv : Services Mesh Cloud Plan) (params : PathPlanningParameters)
    (ids : List Int) (rs : List ProcessPathResult)
    (h : allSurfacePaths sv params ids = .ok rs) :
    ∀ r ∈ rs, ∀ vt ∈ r.paths, recognized vt.1 = true := by
  induction ids generalizing rs with
  | nil =>
    rw [allSurfacePaths] at h
    injection h with h
    rw [← h]
    intro r hr
    exact absurd hr (List.not_mem_nil _)
  | cons id ids ih =>
    rw [allSurfacePaths] at h
    cases hp : generateProcessPathById sv id params with
    | error e =>
      rw [hp] at h
      exact absurd h (by simp)
    | ok r1 =>
      rw [hp] at h
      cases hrest : allSurfacePaths sv params ids with
      | error e =>
        rw [hrest] at h
        exact absurd h (by simp)
      | ok rs1 =>
        rw [hrest] at h
        injection h with h
        rw [← h]
        intro r hr
        rcases List.mem_cons.mp hr with hh | hh
        · rw [hh]
          exact generateProcessPath_names sv id _ _ _ params r1 hp
        · exact ih rs1 hrest r hh

theorem generateProcessPlan_plans_name (sv : Services Mesh Cloud Plan) (name : String)
    (poses : PoseArray) (params : BlendingPlanParameters) (scan_params : ScanPlanParameters)
    (kv : String × Plan)
    (h : kv ∈ (generateProcessPlan sv name poses params scan_params).plans) : kv.1 = name := by
  unfold generateProcessPlan at h
  simp only [] at h
  split at h
  · simp only [List.nil_append, List.mem_singleton] at h
    rw [h]
  · exact absurd h (List.not_mem_nil _)

theorem insertAll_keys (entries : List (String × Plan)) (lib : TrajectoryLibrary Plan)
    (k : String) (h : k ∈ (insertAll entries lib).map Prod.fst) :
    k ∈ lib.map Prod.fst ∨ k ∈ entries.map Prod.fst := by
  induction entries generalizing lib with
  | nil => exact Or.inl h
  | cons kv rest ih =>
    have hc : insertAll (kv :: rest) lib =
        insertAll rest (TrajectoryLibrary.assign lib kv.1 kv.2) := rfl
    rw [hc] at h
    rcases ih _ h with hh | hh
    · rw [assign_keys] at hh
      by_cases hm : kv.1 ∈ lib.map Prod.fst
      · rw [if_pos hm] at hh
        exact Or.inl hh
      · rw [if_neg hm] at hh
        rcases List.mem_append.mp hh with h1 | h1
        · exact Or.inl h1
        · rw [List.mem_singleton] at h1
          rw [h1]
          exact Or.inr (List.mem_map_of_mem Prod.fst (List.mem_cons_self _ _))
    · exact Or.inr (by
        rw [List.map_cons]
        exact List.mem_cons_of_mem _ hh)

theorem generateMotionLibrary_keys_recognized (sv : Services Mesh Cloud Plan)
    (params : PathPlanningParameters) (lib : TrajectoryLibrary Plan) (acc : ProcessPathResults)
    (h : generateMotionLibrary sv params = .ok (lib, acc)) :
    ∀ kv ∈ lib, recognized kv.1 = true := by
  unfold generateMotionLibrary at h
  rw [motionLibraryLoop_eq] at h
  cases hrs : allSurfacePaths sv params sv.getSelectedIds with
  | error e =>
    rw [hrs] at h
    exact absurd h (by simp)
  | ok rs =>
    rw [hrs] at h
    injection h with h
    injection h with hlib _
    intro kv hkv
    rw [← hlib] at hkv
    have hkey : kv.1 ∈ (insertAll (allPlannedEntries sv params rs) []).map Prod.fst :=
      List.mem_map_of_mem Prod.fst hkv
    rcases insertAll_keys _ _ _ hkey with hh | hh
    · exact absurd hh (List.not_mem_nil _)
    · obtain ⟨e, he, hek⟩ := List.mem_map.mp hh
      unfold allPlannedEntries plannedEntries at he
      obtain ⟨r, hr, her⟩ := List.mem_flatMap.mp he
      obtain ⟨vt, hvt, hev⟩ := List.mem_flatMap.mp her
      have hname := generateProcessPlan_plans_name sv vt.1 vt.2 _ _ e hev
      rw [← hek, hname]
      exact allSurfacePaths_names sv params _ rs hrs r hr vt hvt

/-- C9, the claim fails: `"foo"` matches none of the three patterns, yet
`generateProcessPlan` sends it to the scan planning service of the test double
and returns the plan entry `("foo", 100)`, which the plan loop of
`generateMotionLibrary` stores in the library under the key `"foo"`. -/
theorem generateProcessPlan_unrecognized_counterexample :
    isBlendingPath "foo" = false ∧ isEdgePath "foo" = false ∧ isScanPath "foo" = false ∧
    (generateProcessPlan (demoServices 5) "foo" ⟨[]⟩ (blendPlanParameters demoParams)
      (scanPlanParameters demoParams)).plans = [("foo", 100)] ∧
    planPathsLoop (demoServices 5) (blendPlanParameters demoParams)
      (scanPlanParameters demoParams) [("foo", ⟨[]⟩)] [] = [("foo", 100)] := by
  refine ⟨by decide, by decide, by decide, by decide, by decide⟩

/-- C9 as amended: a name that matches none of the three patterns is not
excluded by `generateProcessPlan`: the path goes to the scan planning service
with the scan parameters, and the result holds the entry `(name, plan)` when
that call succeeds and is empty only when it fails. Such a name is still never
a key of the library of `generateMotionLibrary`, because every path name that
`generateProcessPath` records matches one of the patterns. -/
theorem generateProcessPlan_unrecognized (sv : Services Mesh Cloud Plan) (name : String)
    (poses : PoseArray) (blend_params : BlendingPlanParameters)
    (scan_params : ScanPlanParameters) (params : PathPlanningParameters)
    (hb : isBlendingPath name = false) (he : isEdgePath name = false)
    (hs : isScanPath name = false) :
    (generateProcessPlan sv name poses blend_params scan_params).plans =
      (match sv.keyence_planning_client poses scan_params with
      | some process_plan => [(name, process_plan)]
      | none => []) ∧
    (∀ (lib : TrajectoryLibrary Plan) (acc : ProcessPathResults),
      generateMotionLibrary sv params = .ok (lib, acc) →
      (∀ kv ∈ lib, kv.1 ≠ name) ∧ TrajectoryLibrary.lookup lib name = none) := by
  constructor
  · unfold generateProcessPlan
    simp only [hb, he, Bool.false_eq_true, if_false]
    cases sv.keyence_planning_client poses scan_params <;> rfl
  · intro lib acc hlib
    have hkeys : ∀ kv ∈ lib, kv.1 ≠ name := by
      intro kv hkv hname
      have hr := generateMotionLibrary_keys_recognized sv params lib acc hlib kv hkv
      rw [hname] at hr
      simp [recognized, hb, he, hs] at hr
    refine ⟨hkeys, ?_⟩
    cases hl : TrajectoryLibrary.lookup lib name with
    | none => rfl
    | some plan => exact absurd rfl (hkeys _ (mem_of_lookup lib name plan hl))

/-- C9 as amended, at the test double and the name `"foo"`. -/
theorem generateProcessPlan_unrecognized_witness :
    (generateProcessPlan (demoServices 5) "foo" ⟨[]⟩ (blendPlanParameters demoParams)
      (scanPlanParameters demoParams)).plans =
      (match (demoServices 5).keyence_planning_client ⟨[]⟩ (scanPlanParameters demoParams) with
      | some process_plan => [("foo", process_plan)]
      | none => []) ∧
    (∀ (lib : TrajectoryLibrary Nat) (acc : ProcessPathResults),
      generateMotionLibrary (demoServices 5) demoParams = .ok (lib, acc) →
      (∀ kv ∈ lib, kv.1 ≠ "foo") ∧ TrajectoryLibrary.lookup lib "foo" = none) :=
  generateProcessPlan_unrecognized (demoServices 5) "foo" ⟨[]⟩ (blendPlanParameters demoParams)
    (scanPlanParameters demoParams) demoParams (by decide) (by decide) (by decide)

/-! ## C11: the type read back from a generated name -/

theorem not_suffix_of_last_ne (pat l : List Char) (c d : Char) (h : c ≠ d) :
    ¬ (pat ++ [c] <:+ l ++ [d]) := by
  rintro ⟨t, ht⟩
  rw [← List.append_assoc] at ht
  have h1 : [c] = [d] := List.append_inj_right' ht rfl
  injection h1 with h2 _
  exact h h2

theorem digitChar_mod_ten_ne (n : Nat) : Nat.digitChar (n % 10) ≠ 'd' := by
  have hlt : n % 10 < 10 := Nat.mod_lt _ (by decide)
  generalize n % 10 = m at hlt
  interval_cases m <;> decide

theorem toDigitsCore_ne_nil (fuel n : Nat) (ds : List Char) (h : ds ≠ []) :
    Nat.toDigitsCore 10 fuel n ds ≠ [] := by
  induction fuel generalizing n ds with
  | zero => exact h
  | succ fuel ih =>
    rw [Nat.toDigitsCore]
    split
    · exact List.cons_ne_nil _ _
    · exact ih _ _ (List.cons_ne_nil _ _)

theorem toDigitsCore_ne_d (fuel n : Nat) (ds : List Char) (h : ∀ c ∈ ds, c ≠ 'd') :
    ∀ c ∈ Nat.toDigitsCore 10 fuel n ds, c ≠ 'd' := by
  induction fuel generalizing n ds with
  | zero => exact h
  | succ fuel ih =>
    have hcons : ∀ c ∈ Nat.digitChar (n % 10) :: ds, c ≠ 'd' := by
      intro c hc
      rcases List.mem_cons.mp hc with hh | hh
      · rw [hh]
        exact digitChar_mod_ten_ne n
      · exact h c hh
    rw [Nat.toDigitsCore]
    split
    · exact hcons
    · exact ih _ _ hcons

theorem toString_nat_last (i : Nat) :
    ∃ (front : List Char) (c : Char), (toString i).data = front ++ [c] ∧ c ≠ 'd' := by
  have hdata : (toString i).data = Nat.toDigitsCore 10 (i + 1) i [] := rfl
  have hne : Nat.toDigitsCore 10 (i + 1) i [] ≠ [] := by
    rw [Nat.toDigitsCore]
    split
    · exact List.cons_ne_nil _ _
    · exact toDigitsCore_ne_nil _ _ _ (List.cons_ne_nil _ _)
  refine ⟨(Nat.toDigitsCore 10 (i + 1) i []).dropLast,
    (Nat.toDigitsCore 10 (i + 1) i []).getLast hne, ?_, ?_⟩
  · rw [hdata, List.dropLast_append_getLast]
  · exact toDigitsCore_ne_d (i + 1) i [] (fun c hc => absurd hc (List.not_mem_nil _)) _
      (List.getLast_mem hne)

theorem edge_name_not_blend (s : String) (i : Nat) :
    isBlendingPath (s ++ "_edge_" ++ toString i) = false := by
  cases hb : isBlendingPath (s ++ "_edge_" ++ toString i) with
  | false => rfl
  | true =>
    rw [isBlendingPath_iff, String.data_append] at hb
    obtain ⟨front, c, hdata, hc⟩ := toString_nat_last i
    rw [hdata, ← List.append_assoc] at hb
    have h6 : "_blend".data = "_blen".data ++ ['d'] := by decide
    rw [h6] at hb
    exact absurd hb (not_suffix_of_last_ne _ _ _ _ (Ne.symm hc))

theorem scan_name_not_blend (s : String) : isBlendingPath (s ++ "_scan") = false := by
  cases hb : isBlendingPath (s ++ "_scan") with
  | false => rfl
  | true =>
    rw [isBlendingPath_iff, String.data_append] at hb
    have h5 : "_scan".data = "_sca".data ++ ['n'] := by decide
    have h6 : "_blend".data = "_blen".data ++ ['d'] := by decide
    rw [h5, h6, ← List.append_assoc] at hb
    exact absurd hb (not_suffix_of_last_ne _ _ _ _ (by decide))

theorem edge_infix_concat (l : List Char) (c : Char) (hc : 'e' ≠ c) :
    "_edge".data <:+: l ++ [c] ↔ "_edge".data <:+: l := by
  rw [List.infix_concat_iff]
  constructor
  · intro h
    rcases h with h | h
    · have h5 : "_edge".data = "_edg".data ++ ['e'] := by decide
      rw [h5] at h
      exact absurd h (not_suffix_of_last_ne _ _ _ _ hc)
    · exact h
  · intro h
    exact Or.inr h

theorem scan_name_isEdgePath_iff (s : String) :
    isEdgePath (s ++ "_scan") = true ↔ "_edge".data <:+: s.data := by
  rw [isEdgePath_iff, String.data_append]
  have h5 : s.data ++ "_scan".data =
      ((((s.data ++ ['_']) ++ ['s']) ++ ['c']) ++ ['a']) ++ ['n'] := by
    have h : "_scan".data = ['_', 's', 'c', 'a', 'n'] := by decide
    rw [h]
    simp
  rw [h5, edge_infix_concat _ _ (by decide), edge_infix_concat _ _ (by decide),
    edge_infix_concat _ _ (by decide), edge_infix_concat _ _ (by decide),
    edge_infix_concat _ _ (by decide)]

/-- The dispatch of generated names in general: `s ++ "_blend"` passes the blend
test; `s ++ "_edge_" ++ toString i` fails the blend test and passes the edge
test; `s ++ "_scan"` fails the blend test, passes the scan test, and passes the
edge test, which comes before the scan test, exactly when `s` contains
`"_edge"`. -/
theorem generated_names_dispatch :
    (∀ s : String, isBlendingPath (s ++ "_blend") = true) ∧
    (∀ (s : String) (i : Nat),
      isBlendingPath (s ++ "_edge_" ++ toString i) = false ∧
      isEdgePath (s ++ "_edge_" ++ toString i) = true) ∧
    (∀ s : String,
      isBlendingPath (s ++ "_scan") = false ∧ isScanPath (s ++ "_scan") = true ∧
      (isEdgePath (s ++ "_scan") = true ↔ "_edge".data <:+: s.data)) := by
  refine ⟨?_, ?_, ?_⟩
  · intro s
    rw [isBlendingPath_iff, String.data_append]
    exact List.suffix_append _ _
  · intro s i
    refine ⟨edge_name_not_blend s i, ?_⟩
    rw [isEdgePath_iff, String.data_append, String.data_append]
    exact ⟨s.data, '_' :: (toString i).data, by
      have h5 : "_edge_".data = "_edge".data ++ ['_'] := by decide
      rw [h5]
      simp⟩
  · intro s
    refine ⟨scan_name_not_blend s, ?_, scan_name_isEdgePath_iff s⟩
    rw [isScanPath_iff, String.data_append]
    exact (List.suffix_append _ _).isInfix

/-- C11 at the failing input, a surface named `"left_edge"`: its scan path is
named `"left_edge_scan"`, which fails the blend test and passes the edge test,
so the scan test is never reached. `generateMotionLibrary` files the scan poses
under the edge poses (none under the scan poses), and `generateProcessPlan`
plans the path with the blend planning service and the blend parameters: the
library of the test double holds the blend planner's plan 15 for
`"left_edge_scan"`, where the scan planner would have given 115. -/
theorem scan_path_of_edge_named_surface_planned_as_edge :
    edgeNamedServices.getSurfaceName 1 ++ "_scan" = "left_edge_scan" ∧
    isBlendingPath "left_edge_scan" = false ∧
    isEdgePath "left_edge_scan" = true ∧
    isScanPath "left_edge_scan" = true ∧
    (classifyPathsLoop [("left_edge_scan", ⟨[]⟩)] ⟨[], [], []⟩).edge_poses_ = [⟨[]⟩] ∧
    (classifyPathsLoop [("left_edge_scan", ⟨[]⟩)] ⟨[], [], []⟩).scan_poses_ = [] ∧
    edgeNamedServices.blend_planning_client ⟨[]⟩ (blendPlanParameters demoParams) = some 0 ∧
    edgeNamedServices.keyence_planning_client ⟨[]⟩ (scanPlanParameters demoParams) = some 100 ∧
    (generateProcessPlan edgeNamedServices "left_edge_scan" ⟨[]⟩ (blendPlanParameters demoParams)
      (scanPlanParameters demoParams)).plans = [("left_edge_scan", 0)] ∧
    ∃ acc : ProcessPathResults,
      generateMotionLibrary edgeNamedServices demoParams =
        .ok ([("left_edge_blend", 5), ("left_edge_edge_0", 3), ("left_edge_scan", 15)], acc) ∧
      acc.blend_poses_.length = 2 ∧ acc.edge_poses_.length = 4 ∧ acc.scan_poses_ = [] := by
  refine ⟨by decide, by decide, by decide, by decide, by decide, by decide, by decide,
    by decide, by decide, ?_⟩
  exact ⟨_, by with_unfolding_all rfl, by with_unfolding_all rfl, by with_unfolding_all rfl,
    by with_unfolding_all rfl⟩

/-! ## C8: a builder that does not return takes its siblings with it -/

end Proofs

end Godel
